import Mathlib

set_option maxHeartbeats 1000000

/-!
Verification development for the IDM multipart downloader core
(`validator.py`, `url_generator.py`, `idm_controller.py`,
`download_link_resolver.py`, `main.py`).

The Python code is shallowly embedded: pure helpers become Lean functions,
network requests and filesystem reads become explicit oracle parameters
(`Nat → ReqOutcome` for per-attempt request behaviour, a `String` for the
already-loaded external state blob, and so on).  Python `int` is `Int`,
Python `float` (only used for backoff durations) is `ℚ`.  String operations
are implemented over `List Char` by structural recursion so that concrete
runs reduce inside the kernel; they model the CPython semantics at the
ASCII level (the engine's markers, reasons and extensions are all ASCII).
-/

/-- Python substring test `needle in hay`. -/
def strContains (hay needle : String) : Bool :=
  decide (needle.toList <:+: hay.toList)

/-- ASCII lowering of one character (model of `str.lower` per character). -/
def lowerChar (c : Char) : Char :=
  if 'A' ≤ c ∧ c ≤ 'Z' then Char.ofNat (c.toNat + 32) else c

/-- Python `s.lower()` (ASCII model). -/
def strLower (s : String) : String :=
  ⟨s.toList.map lowerChar⟩

/-- Python whitespace for `str.strip()` (ASCII model). -/
def pyIsSpace (c : Char) : Bool :=
  c = ' ' || c = '\t' || c = '\n' || c = '\x0d' || c = '\x0b' || c = '\x0c'

/-- Drop characters satisfying `p` from both ends, Python `s.strip(chars)`. -/
def stripChars (p : Char → Bool) (s : String) : String :=
  ⟨((s.toList.dropWhile p).reverse.dropWhile p).reverse⟩

/-- Drop leading characters satisfying `p`, Python `s.lstrip(chars)`. -/
def lstripChars (p : Char → Bool) (s : String) : String :=
  ⟨s.toList.dropWhile p⟩

/-- Drop trailing characters satisfying `p`, Python `s.rstrip(chars)`. -/
def rstripChars (p : Char → Bool) (s : String) : String :=
  ⟨(s.toList.reverse.dropWhile p).reverse⟩

/-- Python `s.strip()` with no argument. -/
def strStrip (s : String) : String :=
  stripChars pyIsSpace s

/-- Python `s.startswith(pre)`. -/
def strStartsWith (s pre : String) : Bool :=
  pre.toList.isPrefixOf s.toList

/-- Python `s.endswith(suf)`. -/
def strEndsWith (s suf : String) : Bool :=
  suf.toList.isSuffixOf s.toList

/-- Split a string at the first occurrence of `sep` (separator dropped),
Python `s.split(sep, 1)` when `sep` occurs. -/
def splitOnFirst (sep : Char) (s : String) : Option (String × String) :=
  match s.toList.findIdx? (fun c => c = sep) with
  | none => none
  | some i => some (⟨s.toList.take i⟩, ⟨s.toList.drop (i + 1)⟩)

/-- Python `s.split(sep)` on a one-character separator. -/
def splitChar (sep : Char) : List Char → List (List Char)
  | [] => [[]]
  | c :: rest =>
    let r := splitChar sep rest
    if c = sep then [] :: r
    else
      match r with
      | [] => [[c]]
      | h :: t => (c :: h) :: t

/-- Python `s.rsplit(sep, 1)[-1]`: the part after the last occurrence of the
one-character separator (the whole string when absent). -/
def afterLastSep (sep : Char) (s : String) : String :=
  ⟨((splitChar sep s.toList).getLast?).getD s.toList⟩

/-- Non-overlapping left-to-right replacement of a non-empty literal pattern,
Python `s.replace(pat, rep)`; `fuel` bounds the scan (callers pass the input
length, which suffices). -/
def listReplaceAux (pat rep : List Char) : Nat → List Char → List Char
  | _, [] => []
  | 0, l => l
  | fuel + 1, c :: rest =>
    if pat ≠ [] ∧ pat.isPrefixOf (c :: rest) = true then
      rep ++ listReplaceAux pat rep fuel ((c :: rest).drop pat.length)
    else
      c :: listReplaceAux pat rep fuel rest

/-- Python `s.replace(pat, rep)` for non-empty `pat`. -/
def strReplace (s pat rep : String) : String :=
  ⟨listReplaceAux pat.toList rep.toList s.toList.length s.toList⟩

/-- Characters allowed in a URL scheme after the first one
(`urllib.parse.scheme_chars`). -/
def isSchemeChar (c : Char) : Bool :=
  c.isAlpha || c.isDigit || c = '+' || c = '-' || c = '.'

/-- Result of `urllib.parse.urlparse`: the six components
`(scheme, netloc, path, params, query, fragment)`. -/
structure UrlParts where
  scheme : String
  netloc : String
  path : String
  params : String
  query : String
  fragment : String
deriving DecidableEq, Repr

/-- First index in `l` of a character satisfying `p`, defaulting to `l.length`
(CPython `_splitnetloc`: `min` of the `find` results for `/?#`). -/
def findIdxOrLen (p : Char → Bool) (l : List Char) : Nat :=
  (l.findIdx? p).getD l.length

/-- CPython `urlsplit` (modern versions): strip leading controls/space,
remove `\t\r\n`, split off the scheme (validated, lowercased), the netloc
after `//`, the fragment at the first `#`, and the query at the first `?`.
Returns `(scheme, netloc, path, query, fragment)`. -/
def urlsplit (url : String) : String × String × String × String × String :=
  let l := url.toList.dropWhile (fun c => c ≤ ' ')
  let l := l.filter (fun c => ¬ (c = '\t' ∨ c = '\x0d' ∨ c = '\n'))
  let url : String := ⟨l⟩
  let (scheme, rest) :=
    match splitOnFirst ':' url with
    | some (pre, post) =>
        if pre.toList.length > 0 ∧ (pre.toList.headD 'a').isAlpha = true ∧
            pre.toList.all isSchemeChar = true then
          (strLower pre, post)
        else ("", url)
    | none => ("", url)
  let (netloc, rest) :=
    if strStartsWith rest "//" then
      let l := rest.toList.drop 2
      let i := findIdxOrLen (fun c => c = '/' || c = '?' || c = '#') l
      ((⟨l.take i⟩ : String), (⟨l.drop i⟩ : String))
    else ("", rest)
  let (rest, fragment) :=
    match splitOnFirst '#' rest with
    | some (a, b) => (a, b)
    | none => (rest, "")
  let (path, query) :=
    match splitOnFirst '?' rest with
    | some (a, b) => (a, b)
    | none => (rest, "")
  (scheme, netloc, path, query, fragment)

/-- Schemes for which `urlparse` splits path parameters
(`urllib.parse.uses_params`). -/
def usesParams (scheme : String) : Bool :=
  ["", "ftp", "hdl", "prospero", "http", "imap", "https", "shttp", "rtsp",
    "rtspu", "sip", "sips", "mms", "sftp", "tel"].contains scheme

/-- Index of the last occurrence of `c` in `l` (callers guarantee presence;
defaults to `0` otherwise), Python `s.rfind(c)`. -/
def lastIdxOf (c : Char) (l : List Char) : Nat :=
  l.length - 1 - ((l.reverse.findIdx? (fun d => d = c)).getD (l.length - 1))

/-- CPython `_splitparams`: split `;params` off the last path segment. -/
def splitParams (s : String) : String × String :=
  let l := s.toList
  let i? :=
    if l.contains '/' then
      let j := lastIdxOf '/' l
      ((l.drop j).findIdx? (fun c => c = ';')).map (· + j)
    else
      l.findIdx? (fun c => c = ';')
  match i? with
  | none => (s, "")
  | some i => (⟨l.take i⟩, ⟨l.drop (i + 1)⟩)

/-- CPython `urlparse`: `urlsplit` plus params splitting for schemes that use
them. -/
def urlparse (url : String) : UrlParts :=
  let (scheme, netloc, rest, query, fragment) := urlsplit url
  let (path, params) :=
    if usesParams scheme && rest.toList.contains ';' then splitParams rest
    else (rest, "")
  ⟨scheme, netloc, path, params, query, fragment⟩

/-- Hexadecimal digit value. -/
def hexVal (c : Char) : Option Nat :=
  if '0' ≤ c ∧ c ≤ '9' then some (c.toNat - '0'.toNat)
  else if 'a' ≤ c ∧ c ≤ 'f' then some (c.toNat - 'a'.toNat + 10)
  else if 'A' ≤ c ∧ c ≤ 'F' then some (c.toNat - 'A'.toNat + 10)
  else none

/-- Percent-decoding scanner for `urllib.parse.unquote`: a `%` followed by two
hex digits becomes the character with that code; a malformed escape keeps the
`%` literally.  (Agrees with CPython for escapes that decode to single-byte
code points; multi-byte UTF-8 escape runs are out of scope for the claims.) -/
def unquoteAux : List Char → List Char
  | [] => []
  | '%' :: a :: b :: rest =>
    match hexVal a, hexVal b with
    | some ha, some hb => Char.ofNat (16 * ha + hb) :: unquoteAux rest
    | _, _ => '%' :: unquoteAux (a :: b :: rest)
  | c :: rest => c :: unquoteAux rest

/-- Python `urllib.parse.unquote`. -/
def unquote (s : String) : String :=
  ⟨unquoteAux s.toList⟩

/-- `pathlib.PurePosixPath(s).name`: last path component, with empty and `.`
segments dropped.  (`idm_controller.py` and `main.py` run `pathlib.Path` on
URL paths/fragments, which use `/` separators.) -/
def posixPathName (s : String) : String :=
  ⟨((((splitChar '/' s.toList).filter
      (fun seg => seg ≠ [] ∧ seg ≠ ['.']))).getLast?).getD []⟩

/-- CPython `urlunsplit`. -/
def urlunsplit (scheme netloc url query fragment : String) : String :=
  let url :=
    if netloc ≠ "" ∨ strStartsWith url "//" = true then
      "//" ++ netloc ++
        (if url ≠ "" ∧ ¬ strStartsWith url "/" = true then "/" ++ url else url)
    else url
  let url := if scheme ≠ "" then scheme ++ ":" ++ url else url
  let url := if query ≠ "" then url ++ "?" ++ query else url
  if fragment ≠ "" then url ++ "#" ++ fragment else url

/-- CPython `urlunparse`, i.e. `ParseResult.geturl`. -/
def UrlParts.geturl (u : UrlParts) : String :=
  let url := if u.params ≠ "" then u.path ++ ";" ++ u.params else u.path
  urlunsplit u.scheme u.netloc url u.query u.fragment

/-! ## `validator.py` -/

/-- Python `int(s)` on strings: optional surrounding whitespace, optional
sign, decimal digits (underscore separators are not modelled). -/
def pyInt? (s : String) : Option Int :=
  let t := (strStrip s).toList
  let signDigits : Int × List Char :=
    match t with
    | '+' :: rest => (1, rest)
    | '-' :: rest => (-1, rest)
    | l => (1, l)
  if signDigits.2 ≠ [] ∧ signDigits.2.all Char.isDigit = true then
    some (signDigits.1 *
      ((signDigits.2.foldl (fun acc c => 10 * acc + (c.toNat - '0'.toNat)) 0 : Nat) : Int))
  else none

/-- The response headers consumed by the validator, as a case-insensitive
lookup result for the four keys the code reads (`None` when absent). -/
structure Headers where
  contentLength : Option String := none
  contentRange : Option String := none
  contentType : Option String := none
  contentDisposition : Option String := none
deriving DecidableEq

/-- `validator.ValidationResult`. -/
structure ValidationResult where
  is_valid : Bool
  status_code : Option Int
  size_bytes : Int
  reason : String
deriving DecidableEq, Repr

/-- The configuration fields of `validator.URLValidator`. -/
structure URLValidatorCfg where
  timeout : Int
  min_size_bytes : Int
  verify_ssl : Bool
  retry_count : Int
  retry_backoff_seconds : ℚ
  head_fallback_get : Bool
  require_rar_extension : Bool
  reject_html_content : Bool

/-- `URLValidator._is_valid_url`: non-empty scheme and netloc. -/
def is_valid_url (url : String) : Bool :=
  let parsed := urlparse url
  parsed.scheme ≠ "" ∧ parsed.netloc ≠ ""

/-- `URLValidator._extract_size_from_headers`: `Content-Length` when present
(unparsable gives 0), else the total after `/` in `Content-Range`, else 0. -/
def extract_size_from_headers (h : Headers) : Int :=
  match h.contentLength with
  | some content_length => (pyInt? content_length).getD 0
  | none =>
    let content_range := h.contentRange.getD ""
    if strContains content_range "/" then
      (pyInt? (afterLastSep '/' content_range)).getD 0
    else 0

/-- `URLValidator._extract_content_type`: media type before any `;`,
stripped and lowercased. -/
def extract_content_type (h : Headers) : String :=
  let content_type := h.contentType.getD ""
  strLower (strStrip ((splitOnFirst ';' content_type).elim content_type Prod.fst))

/-- Leftmost match of `needle ++ ([^;"]+-style capture)` in `hayLower`,
modelling `re.search` for the two `Content-Disposition` filename patterns:
at the match position the needle is followed by at least one character not
satisfying `stop` (after `skipQuote`, one `"` may sit between needle and
capture); the capture is the maximal run of characters not satisfying
`stop`. -/
def searchCapture (hayLower needle : List Char) (skipQuote : Bool)
    (stop : Char → Bool) : Option (List Char) :=
  let body := fun (i : Nat) =>
    let rest := hayLower.drop (i + needle.length)
    let rest := if skipQuote then
        match rest with
        | '"' :: r => r
        | r => r
      else rest
    rest
  match (List.range (hayLower.length + 1)).find? (fun i =>
      needle.isPrefixOf (hayLower.drop i) &&
      (match (body i).head? with
       | some c => ¬ stop c
       | none => false)) with
  | some i => some ((body i).takeWhile (fun c => ¬ stop c))
  | none => none

/-- `URLValidator._extract_filename_from_content_disposition`: the UTF-8
`filename*=` form first, else the plain (optionally quoted) `filename=` form,
else the empty string; both results lowercased (the regexes are
case-insensitive, so the search runs over the lowered header). -/
def extract_filename_from_content_disposition (h : Headers) : String :=
  let disposition := h.contentDisposition.getD ""
  if disposition = "" then ""
  else
    let low := (strLower disposition).toList
    match searchCapture low "filename*=utf-8''".toList false (fun c => c = ';') with
    | some cap => stripChars (fun c => c = '"' || c = ' ') ⟨cap⟩
    | none =>
      match searchCapture low "filename=".toList true
          (fun c => c = '"' || c = ';') with
      | some cap => strStrip ⟨cap⟩
      | none => ""

/-- `URLValidator._looks_like_rar_target`: a `.rar` suffix on the URL path
name, the URL fragment name, or the content-disposition filename, else a RAR
content type. -/
def looks_like_rar_target (url : String) (h : Headers) : Bool :=
  let parsed := urlparse url
  let path_name := strLower (afterLastSep '/' parsed.path)
  let fragment_name := strLower (afterLastSep '/' parsed.fragment)
  let disposition_name := extract_filename_from_content_disposition h
  let content_type := extract_content_type h
  let filename_hints := [path_name, fragment_name, disposition_name]
  if (filename_hints.filter (fun name => name ≠ "")).any
      (fun name => strEndsWith name ".rar") then true
  else
    content_type = "application/x-rar-compressed" ∨
      content_type = "application/vnd.rar"

/-- `URLValidator._validate_response`: status gate, HTML rejection, RAR
requirement, then minimum size, in that order. -/
def validate_response (v : URLValidatorCfg) (url : String) (status_code : Int)
    (size_bytes : Int) (h : Headers) : ValidationResult :=
  if status_code ≠ 200 ∧ status_code ≠ 206 then
    ⟨false, some status_code, 0, "HTTP " ++ toString status_code⟩
  else
    let content_type := extract_content_type h
    if v.reject_html_content = true ∧ strStartsWith content_type "text/html" = true then
      ⟨false, some status_code, size_bytes,
        "Landing page/HTML response detected (non-direct file URL)"⟩
    else if v.require_rar_extension = true ∧ looks_like_rar_target url h = false then
      ⟨false, some status_code, size_bytes, "Target is not recognized as RAR file"⟩
    else if size_bytes < v.min_size_bytes then
      ⟨false, some status_code, size_bytes,
        "File too small: " ++ toString size_bytes ++ " bytes"⟩
    else
      ⟨true, some status_code, size_bytes, "OK"⟩

/-- An HTTP response as consumed by the prober: status code and headers. -/
structure HttpResponse where
  status_code : Int
  headers : Headers
deriving DecidableEq

/-- `URLValidator._request_get_fallback` given the response of the ranged GET:
a resolved size of at most one byte is coerced to 0 before classification. -/
def request_get_fallback (v : URLValidatorCfg) (url : String)
    (resp : HttpResponse) : ValidationResult :=
  let size_bytes := extract_size_from_headers resp.headers
  let size_bytes := if size_bytes ≤ 1 then 0 else size_bytes
  validate_response v url resp.status_code size_bytes resp.headers

/-- `URLValidator._request_head` given the HEAD response and the response the
ranged GET would produce.  The second component records whether the fallback
GET request was issued. -/
def request_head (v : URLValidatorCfg) (url : String)
    (headResp getResp : HttpResponse) : ValidationResult × Bool :=
  let size_bytes := extract_size_from_headers headResp.headers
  if v.head_fallback_get = true ∧ size_bytes = 0 then
    (request_get_fallback v url getResp, true)
  else
    (validate_response v url headResp.status_code size_bytes headResp.headers, false)

/-- The behaviour of one `_request_head` call inside `validate`'s attempt
loop: a returned classification, a `requests.Timeout`, another
`requests.RequestException`, or an exception of any other type. -/
inductive ReqOutcome where
  | success (result : ValidationResult)
  | timeout
  | reqError (detail : String)
  | otherExc (detail : String)
deriving DecidableEq

deriving instance DecidableEq for Except

/-- Instrumented result of `URLValidator.validate`: the returned value (or,
via `Except.error`, an exception that escaped), the number of attempts made,
the durations slept between attempts, and whether the trailing
`"Unknown validation failure"` return was reached. -/
structure ValidateRun where
  result : Except String ValidationResult
  attemptsMade : Nat
  sleeps : List ℚ
  exhausted : Bool
deriving DecidableEq

/-- The attempt loop of `URLValidator.validate`: `attempt` is the 1-based
attempt number, `remaining` the number of loop iterations left (so the
current attempt is the final one exactly when `remaining = 1`).  On a
non-final timeout or request error the loop sleeps
`retry_backoff_seconds * attempt` and retries; other exceptions propagate. -/
def validateLoop (backoff : ℚ) (outcomes : Nat → ReqOutcome) :
    Nat → Nat → ValidateRun
  | _, 0 =>
    ⟨Except.ok ⟨false, none, 0, "Unknown validation failure"⟩, 0, [], true⟩
  | attempt, r + 1 =>
    match outcomes attempt with
    | .success result => ⟨Except.ok result, 1, [], false⟩
    | .timeout =>
      if r = 0 then ⟨Except.ok ⟨false, none, 0, "Timeout"⟩, 1, [], false⟩
      else
        let rest := validateLoop backoff outcomes (attempt + 1) r
        ⟨rest.result, rest.attemptsMade + 1,
          backoff * (attempt : ℚ) :: rest.sleeps, rest.exhausted⟩
    | .reqError detail =>
      if r = 0 then
        ⟨Except.ok ⟨false, none, 0, "Request error: " ++ detail⟩, 1, [], false⟩
      else
        let rest := validateLoop backoff outcomes (attempt + 1) r
        ⟨rest.result, rest.attemptsMade + 1,
          backoff * (attempt : ℚ) :: rest.sleeps, rest.exhausted⟩
    | .otherExc detail => ⟨Except.error detail, 1, [], false⟩

/-- `URLValidator.validate`: fail fast on malformed URLs without touching the
network, else run `retry_count + 1` attempts. -/
def validate (v : URLValidatorCfg) (outcomes : Nat → ReqOutcome)
    (url : String) : ValidateRun :=
  if is_valid_url url = false then
    ⟨Except.ok ⟨false, none, 0, "Invalid URL format"⟩, 0, [], false⟩
  else
    validateLoop v.retry_backoff_seconds outcomes 1 (v.retry_count + 1).toNat

/-! ## `url_generator.py` -/

/-- `url_generator.FilePart`. -/
structure FilePart where
  index : Int
  url : String
  filename : String
  size_bytes : Int
deriving DecidableEq, Repr

/-- `url_generator.GenerationReport`. -/
structure GenerationReport where
  parts : List FilePart
  examined_count : Nat
  stop_reason : String
  stop_index : Option Int
deriving DecidableEq, Repr

/-- The configuration fields of `config_loader.AppConfig` consumed by
`URLGenerator` (`max_part` and `padding` are validated positive by the
loader, hence `Nat`). -/
structure GenConfig where
  base_url : String
  filename_pattern : String
  start_index : Int
  end_index : Option Int
  padding : Nat
  max_part : Nat

/-- Python `str(n).zfill(width)`: left-pad with zeros after any sign. -/
def zfill (width : Nat) (s : String) : String :=
  if s.toList.length ≥ width then s
  else
    match s.toList with
    | c :: rest =>
      if c = '+' ∨ c = '-' then
        ⟨c :: (List.replicate (width - s.toList.length) '0' ++ rest)⟩
      else ⟨List.replicate (width - s.toList.length) '0' ++ s.toList⟩
    | [] => ⟨List.replicate width '0'⟩

/-- `URLGenerator._build_url`: substitute the padded index, the raw index and
the stripped base URL into the filename pattern (`str.format` restricted to
these three fields, which are the only ones the loader accepts), then resolve
against the base URL unless the result is already absolute. -/
def build_url (cfg : GenConfig) (index : Int) : String :=
  let padded_index := zfill cfg.padding (toString index)
  let base := rstripChars (fun c => c = '/') cfg.base_url
  let candidate :=
    strReplace
      (strReplace (strReplace cfg.filename_pattern "{index}" padded_index)
        "{index_raw}" (toString index))
      "{base_url}" base
  if strStartsWith candidate "http://" || strStartsWith candidate "https://" then
    candidate
  else
    base ++ "/" ++ lstripChars (fun c => c = '/') candidate

/-- `URLGenerator._extract_filename`: the URL path's last component, else
`part_{index}`. -/
def extract_filename (url : String) (index : Int) : String :=
  let path := (urlparse url).path
  let name := posixPathName path
  if name ≠ "" then name else "part_" ++ toString index

/-- Which stop condition ended a generation run (instrumentation only; the
report itself is exactly what the code returns). -/
inductive StopKind where
  | reachedEnd
  | duplicateUrl
  | invalidProbe
  | maxPart
  | completedLoop
deriving DecidableEq, Repr

/-- State returned by the generation loop body: the accumulated parts, the
examined counter, the stop bookkeeping, the value of the `index` variable on
exit, and the branch taken. -/
structure RawGenState where
  parts : List FilePart
  examined : Nat
  stop_reason : String
  stop_index : Option Int
  finalIndex : Int
  kind : StopKind
deriving DecidableEq

/-- The guard `end_index is not None and index > end_index`. -/
def pastEndIndex (endIndex : Option Int) (index : Int) : Bool :=
  match endIndex with
  | some e => decide (index > e)
  | none => false

/-- The `while examined < max_part` loop of `URLGenerator.generate`.  The
probe oracle plays `self.validator.validate`; `fuel` is `max_part - examined`,
so the loop condition fails exactly when `fuel = 0`. -/
def genLoop (cfg : GenConfig) (probe : String → ValidationResult) :
    List FilePart → List String → Int → Nat → Nat → RawGenState
  | parts, _seen, index, examined, 0 =>
    ⟨parts, examined, "completed", none, index, .completedLoop⟩
  | parts, seen, index, examined, fuel + 1 =>
    if pastEndIndex cfg.end_index index then
      ⟨parts, examined, "reached end_index", none, index, .reachedEnd⟩
    else
      let url := build_url cfg index
      let examined1 := examined + 1
      if seen.contains url then
        ⟨parts, examined1, "duplicate URL generated", some index, index, .duplicateUrl⟩
      else
        let result := probe url
        if result.is_valid = false then
          ⟨parts, examined1, result.reason, some index, index, .invalidProbe⟩
        else
          genLoop cfg probe
            (parts ++ [⟨index, url, extract_filename url index, result.size_bytes⟩])
            (url :: seen) (index + 1) examined1 fuel

/-- `URLGenerator.generate` instrumented with the stop kind: run the loop from
`start_index` with all of `max_part` as fuel, then apply the post-loop fixup
(`examined >= max_part` and untouched `stop_reason` become
`"reached max_part"` with `stop_index = index`). -/
def generateWithKind (cfg : GenConfig) (probe : String → ValidationResult) :
    GenerationReport × StopKind :=
  let raw := genLoop cfg probe [] [] cfg.start_index 0 cfg.max_part
  if cfg.max_part ≤ raw.examined ∧ raw.stop_reason = "completed" then
    (⟨raw.parts, raw.examined, "reached max_part", some raw.finalIndex⟩, .maxPart)
  else
    (⟨raw.parts, raw.examined, raw.stop_reason, raw.stop_index⟩, raw.kind)

/-- `URLGenerator.generate` (sequential mode). -/
def generate (cfg : GenConfig) (probe : String → ValidationResult) :
    GenerationReport :=
  (generateWithKind cfg probe).1

/-! ## `download_link_resolver.py` -/

/-- `download_link_resolver.ResolveResult`. -/
structure ResolveResult where
  resolved_url : String
  was_resolved : Bool
  reason : String
deriving DecidableEq, Repr

/-- `download_link_resolver._is_http_url`. -/
def is_http_url (value : String) : Bool :=
  let parsed := urlparse value
  (parsed.scheme = "http" ∨ parsed.scheme = "https") ∧ parsed.netloc ≠ ""

/-- One iteration of the selenium polling loop, as observed through the
browser-automation boundary: the URL of a newly opened window (if any opened)
and the URL the driver currently reports. -/
structure PollStep where
  newHandleUrl : Option String
  sameTabUrl : String

/-- The behaviour of the browser-automation fallback environment: selenium
missing, the driver raising, or a bounded sequence of poll observations
(exhaustion of the list is the `time.time() < end_time` timeout). -/
inductive SeleniumEnv where
  | importError
  | driverError (detail : String)
  | polls (steps : List PollStep)

/-- The polling loop of `_resolve_with_selenium_click`: a new window whose URL
is absolute http(s) wins as a click result; otherwise the current URL (the new
window's if one was switched to, else the same tab's) wins as a same-tab
result when its path contains `/dl/`; otherwise sleep and poll again. -/
def seleniumPollLoop (url : String) : List PollStep → ResolveResult
  | [] => ⟨url, false, "selenium click did not produce direct link"⟩
  | step :: rest =>
    let clickHit : Option ResolveResult :=
      match step.newHandleUrl with
      | some u =>
        if is_http_url u then some ⟨u, true, "resolved via selenium click"⟩
        else none
      | none => none
    match clickHit with
    | some r => r
    | none =>
      let candidate_url := (step.newHandleUrl).getD step.sameTabUrl
      if strContains (urlparse candidate_url).path "/dl/" &&
          is_http_url candidate_url then
        ⟨candidate_url, true, "resolved via selenium same-tab"⟩
      else
        seleniumPollLoop url rest

/-- `download_link_resolver._resolve_with_selenium_click`. -/
def resolve_with_selenium_click (url : String) (env : SeleniumEnv) :
    ResolveResult :=
  match env with
  | .importError => ⟨url, false, "selenium not installed"⟩
  | .driverError detail => ⟨url, false, "selenium fallback error: " ++ detail⟩
  | .polls steps => seleniumPollLoop url steps

/-- The landing-page fetch as consumed by the resolver: the final (post
redirect) URL, the `Content-Type` header and the body text. -/
structure HtmlFetchResponse where
  url : String
  contentType : Option String
  text : String

/-- Outcome of the resolver's `requests.get`: a response or a
`requests.RequestException`. -/
inductive FetchOutcome where
  | exc (detail : String)
  | ok (resp : HtmlFetchResponse)

/-- `download_link_resolver.resolve_download_button_link`.  The regular
expression scans and `urljoin` are passed as oracles: `windowOpenMatches`
and `hrefDlMatches` model `re.findall` of `_WINDOW_OPEN_RE` / `_HREF_DL_RE`
over the body, and `urljoinFn` models `urllib.parse.urljoin` against the
response's final URL. -/
def resolve_download_button_link (url : String) (enabled : Bool)
    (selenium_fallback_enabled : Bool) (fetch : FetchOutcome)
    (windowOpenMatches hrefDlMatches : String → List String)
    (urljoinFn : String → String → String) (seleniumEnv : SeleniumEnv) :
    ResolveResult :=
  if enabled = false then ⟨url, false, "resolver disabled"⟩
  else if strContains (urlparse url).path "/dl/" then
    ⟨url, false, "already direct"⟩
  else
    match fetch with
    | .exc detail => ⟨url, false, "resolver request error: " ++ detail⟩
    | .ok response =>
      let ct := response.contentType.getD ""
      let content_type :=
        strLower (strStrip ((splitOnFirst ';' ct).elim ct Prod.fst))
      if strStartsWith content_type "text/html" = false then
        ⟨url, false, "not an HTML landing page"⟩
      else
        let html := response.text
        let openHit := ((windowOpenMatches html).map
          (fun candidate => urljoinFn response.url candidate)).find? is_http_url
        match openHit with
        | some direct_url => ⟨direct_url, true, "resolved via window.open"⟩
        | none =>
          let hrefHit := ((hrefDlMatches html).map
            (fun candidate => urljoinFn response.url candidate)).find? is_http_url
          match hrefHit with
          | some direct_url => ⟨direct_url, true, "resolved via href /dl/"⟩
          | none =>
            if selenium_fallback_enabled then
              let selenium_result := resolve_with_selenium_click url seleniumEnv
              if selenium_result.was_resolved then selenium_result
              else
                ⟨url, false,
                  "download button link not found; " ++ selenium_result.reason⟩
            else ⟨url, false, "download button link not found"⟩

/-! ## `idm_controller.py` -/

/-- `IDMController._resume_tokens`: the fragment-stripped URL, the decoded
final path segment and the decoded final fragment segment, lowercased and
stripped, with empty tokens dropped.  (The Python function returns a `set`;
only membership is consumed, so a duplicate-preserving list is faithful.) -/
def resume_tokens (url : String) : List String :=
  let parsed := urlparse url
  let base_url := strStrip (strLower ({ parsed with fragment := "" }).geturl)
  let path_name := strStrip (strLower (posixPathName (unquote parsed.path)))
  let fragment_name := strStrip (strLower (posixPathName (unquote parsed.fragment)))
  ([base_url] ++ (if path_name ≠ "" then [path_name] else []) ++
      (if fragment_name ≠ "" then [fragment_name] else [])).filter
    (fun token => token ≠ "")

/-- `IDMController.reconcile_resume_urls`.  `state_blob` is the result of
`_load_idm_state_blob` (the lowercased concatenation of all readable state
files); a missing or unreadable state directory yields `""`.  URL sets are
modelled as lists; `filter` preserves exactly the kept subset. -/
def reconcile_resume_urls (state_blob : String) (resume_urls : List String) :
    List String :=
  if resume_urls = [] then resume_urls
  else if state_blob = "" then resume_urls
  else
    resume_urls.filter
      (fun url => (resume_tokens url).any (fun token => strContains state_blob token))

/-! ## `main.py` (input-URL mode) -/

/-- `main._filename_from_url`: a `.rar` fragment name wins, else a dotted
path name, else `file_{index}`. -/
def filename_from_url (url : String) (index : Int) : String :=
  let parsed := urlparse url
  let fragment_name := posixPathName (unquote parsed.fragment)
  if strEndsWith (strLower fragment_name) ".rar" then fragment_name
  else
    let name := posixPathName (unquote parsed.path)
    if name ≠ "" ∧ strContains name "." = true then name
    else "file_" ++ toString index

/-- The per-URL body of `main.build_report_from_input_urls`: resolve, probe
the resolved URL, and keep a part for valid results or for the size-unknown
exception (status 200/206, size 0, reason starting `"File too small"`). -/
def buildInputLoop (resolver : String → ResolveResult)
    (probe : String → ValidationResult) : List String → Int → List FilePart
  | [], _ => []
  | url :: rest, index =>
    let target_url := (resolver url).resolved_url
    let result := probe target_url
    if result.is_valid then
      ⟨index, target_url, filename_from_url url index, result.size_bytes⟩ ::
        buildInputLoop resolver probe rest (index + 1)
    else
      let allow_unknown_size :=
        (result.status_code == some 200 || result.status_code == some 206) &&
          result.size_bytes == 0 && strStartsWith result.reason "File too small"
      if allow_unknown_size then
        ⟨index, target_url, filename_from_url url index, 0⟩ ::
          buildInputLoop resolver probe rest (index + 1)
      else
        buildInputLoop resolver probe rest (index + 1)

/-- `main.build_report_from_input_urls`: every input URL is examined (the
resolver is abstracted as an oracle from the input URL to its
`ResolveResult`). -/
def build_report_from_input_urls (input_urls : List String)
    (resolver : String → ResolveResult) (probe : String → ValidationResult) :
    GenerationReport :=
  let parts := buildInputLoop resolver probe input_urls 1
  let checked := input_urls.length
  ⟨parts, checked, "input_urls processed",
    if checked > 0 then some (checked : Int) else none⟩

/-! ## Concrete instances used to exercise the theorems -/

/-- Generator configuration of the spec's three-URL scenario: base URL plus
`file.part{index}.rar`, starting at 1, no end index, padding 3. -/
def cfgW1 : GenConfig :=
  ⟨"https://example.com", "file.part{index}.rar", 1, none, 3, 10⟩

/-- Probe oracle of the spec's three-URL scenario: parts 1 and 2 exist with
10,000,000 bytes, everything else is `HTTP 404`. -/
def probeW1 (url : String) : ValidationResult :=
  if url = "https://example.com/file.part001.rar" then
    ⟨true, some 200, 10000000, "OK"⟩
  else if url = "https://example.com/file.part002.rar" then
    ⟨true, some 200, 10000000, "OK"⟩
  else
    ⟨false, some 404, 0, "HTTP 404"⟩

/-- A generator configuration with an end index, used to exercise the
sequential-mode invariants. -/
def cfgW2 : GenConfig :=
  ⟨"https://example.com", "file.part{index}.rar", 1, some 2, 3, 5⟩

/-- A probe oracle that accepts everything with 5 bytes. -/
def probeAllValid (_url : String) : ValidationResult :=
  ⟨true, some 200, 5, "OK"⟩

/-- A probe oracle that rejects everything with `HTTP 404`. -/
def probeAll404 (_url : String) : ValidationResult :=
  ⟨false, some 404, 0, "HTTP 404"⟩

/-- A probe oracle reporting the size-unknown outcome for every URL. -/
def probeSizeUnknown (_url : String) : ValidationResult :=
  ⟨false, some 200, 0, "File too small: 0 bytes"⟩

/-- A resolver oracle behaving as a disabled resolver. -/
def resolverDisabled (url : String) : ResolveResult :=
  ⟨url, false, "resolver disabled"⟩

/-- A validator configuration with two retries and unit backoff. -/
def vW4 : URLValidatorCfg :=
  ⟨10, 1048576, true, 2, 1, true, true, true⟩

/-- A validator configuration with a negative retry count (constructible
directly, though `load_config` validation forbids it). -/
def vWneg : URLValidatorCfg :=
  ⟨10, 1048576, true, -1, 1, true, true, true⟩

/-- The first sequential part produced by `cfgW2` with `probeAllValid`. -/
def partSeqW : FilePart :=
  ⟨1, "https://example.com/file.part001.rar", "file.part001.rar", 5⟩

/-- The input-URL-mode part produced from `["https://h/a.rar"]` under the
size-unknown exception. -/
def partInputW : FilePart :=
  ⟨1, "https://h/a.rar", "a.rar", 0⟩

/-! ## Theorems -/

/-- Helper: appending to a non-empty string stays non-empty. -/
theorem str_append_ne_empty (a b : String) (h : a ≠ "") : a ++ b ≠ "" := by
  intro hab
  apply h
  have hlen : (a ++ b).length = 0 := by rw [hab]; rfl
  rw [String.length_append] at hlen
  have : a.length = 0 := by omega
  cases a with
  | mk data => cases data with
    | nil => rfl
    | cons c cs => simp [String.length] at this

/-- C7: `validate` on a syntactically invalid URL (missing scheme or host)
performs no attempt (hence no network call) and returns
`is_valid = false`, `status_code = None`, `reason = "Invalid URL format"`. -/
theorem C7_invalid_url_fails_fast (v : URLValidatorCfg)
    (outcomes : Nat → ReqOutcome) (url : String)
    (h : is_valid_url url = false) :
    validate v outcomes url =
      ⟨Except.ok ⟨false, none, 0, "Invalid URL format"⟩, 0, [], false⟩ := by
  simp [validate, h]

/-- Witness for C7 at the concrete input `"not a url"`. -/
theorem C7_invalid_url_fails_fast_witness :
    is_valid_url "not a url" = false ∧
      validate vW4 (fun _ => ReqOutcome.timeout) "not a url" =
        ⟨Except.ok ⟨false, none, 0, "Invalid URL format"⟩, 0, [], false⟩ :=
  ⟨by decide, C7_invalid_url_fails_fast vW4 (fun _ => ReqOutcome.timeout) "not a url" (by decide)⟩

/-- C5 (counterexample): a `text/html` response with status 404 and HTML
rejection enabled is classified `"HTTP 404"`, not as a landing page, so the
claim's "regardless of the response's size" does not extend to non-2xx
statuses. -/
theorem C5_counterexample :
    strStartsWith
        (extract_content_type { contentType := some "text/html; charset=utf-8" })
        "text/html" = true ∧
    (⟨10, 1, true, 0, 0, false, false, true⟩ : URLValidatorCfg).reject_html_content = true ∧
    validate_response ⟨10, 1, true, 0, 0, false, false, true⟩
        "https://example.com/landing" 404 4096
        { contentType := some "text/html; charset=utf-8" } =
      ⟨false, some 404, 0, "HTTP 404"⟩ ∧
    (validate_response ⟨10, 1, true, 0, 0, false, false, true⟩
        "https://example.com/landing" 404 4096
        { contentType := some "text/html; charset=utf-8" }).reason ≠
      "Landing page/HTML response detected (non-direct file URL)" := by
  decide

/-- C5 (amended): for a response with status 200 or 206 whose content type
starts with `text/html`, with HTML rejection enabled, classification returns
invalid with the landing-page reason regardless of the response's size. -/
theorem C5_html_rejected (v : URLValidatorCfg) (url : String)
    (status_code size_bytes : Int) (h : Headers)
    (hst : status_code = 200 ∨ status_code = 206)
    (hrej : v.reject_html_content = true)
    (hct : strStartsWith (extract_content_type h) "text/html" = true) :
    validate_response v url status_code size_bytes h =
      ⟨false, some status_code, size_bytes,
        "Landing page/HTML response detected (non-direct file URL)"⟩ := by
  rcases hst with h1 | h1 <;> subst h1 <;>
    simp [validate_response, hrej, hct]

/-- Witness for the amended C5 at a concrete HTML response. -/
theorem C5_html_rejected_witness :
    validate_response ⟨10, 1, true, 0, 0, false, true, true⟩
        "https://example.com/landing" 200 4096
        { contentType := some "text/html; charset=utf-8" } =
      ⟨false, some 200, 4096,
        "Landing page/HTML response detected (non-direct file URL)"⟩ :=
  C5_html_rejected _ _ _ _ _ (Or.inl rfl) rfl (by decide)

/-- Helper: classifying with size 0 always reports size 0. -/
theorem validate_response_size_zero (v : URLValidatorCfg) (url : String)
    (status_code : Int) (h : Headers) :
    (validate_response v url status_code 0 h).size_bytes = 0 := by
  simp only [validate_response]
  split
  · rfl
  · split
    · rfl
    · split
      · rfl
      · split <;> rfl

/-- C6 (counterexample): a fallback response with status 404 and resolved
size 1 is coerced to size 0 but classified `"HTTP 404"`, not
`"File too small: 0 bytes"`, so the claim's reason statement does not extend
to fallback responses that fail the earlier classification rules. -/
theorem C6_counterexample :
    extract_size_from_headers ({} : Headers) = 0 ∧
    (⟨10, 1, true, 0, 0, true, false, false⟩ : URLValidatorCfg).head_fallback_get = true ∧
    extract_size_from_headers ({ contentLength := some "1" } : Headers) ≤ 1 ∧
    0 < (⟨10, 1, true, 0, 0, true, false, false⟩ : URLValidatorCfg).min_size_bytes ∧
    (request_head ⟨10, 1, true, 0, 0, true, false, false⟩ "https://example.com/a.rar"
        ⟨200, {}⟩ ⟨404, { contentLength := some "1" }⟩).2 = true ∧
    (request_head ⟨10, 1, true, 0, 0, true, false, false⟩ "https://example.com/a.rar"
        ⟨200, {}⟩ ⟨404, { contentLength := some "1" }⟩).1 =
      ⟨false, some 404, 0, "HTTP 404"⟩ ∧
    (request_head ⟨10, 1, true, 0, 0, true, false, false⟩ "https://example.com/a.rar"
        ⟨200, {}⟩ ⟨404, { contentLength := some "1" }⟩).1.reason ≠
      "File too small: 0 bytes" := by
  decide

/-- C6 (amended): when the metadata-only request resolves size 0 and the
fallback option is enabled, exactly one fallback request is issued; when the
fallback's resolved size is at most 1 the final size is coerced to 0, and —
provided the fallback response passes the earlier classification rules
(status 200/206, not rejected as HTML, not rejected by the RAR requirement)
and the configured minimum size is positive — the reason is
`"File too small: 0 bytes"`. -/
theorem C6_head_fallback (v : URLValidatorCfg) (url : String)
    (headResp getResp : HttpResponse)
    (hfb : v.head_fallback_get = true)
    (hhead : extract_size_from_headers headResp.headers = 0) :
    (request_head v url headResp getResp).2 = true ∧
    (extract_size_from_headers getResp.headers ≤ 1 →
      (request_head v url headResp getResp).1.size_bytes = 0 ∧
      ((getResp.status_code = 200 ∨ getResp.status_code = 206) →
        ¬ (v.reject_html_content = true ∧
            strStartsWith (extract_content_type getResp.headers) "text/html" = true) →
        ¬ (v.require_rar_extension = true ∧
            looks_like_rar_target url getResp.headers = false) →
        0 < v.min_size_bytes →
        (request_head v url headResp getResp).1 =
          ⟨false, some getResp.status_code, 0, "File too small: 0 bytes"⟩)) := by
  have hhd : request_head v url headResp getResp =
      (request_get_fallback v url getResp, true) := by
    simp [request_head, hfb, hhead]
  rw [hhd]
  refine ⟨rfl, ?_⟩
  intro hsize
  have hfall : request_get_fallback v url getResp =
      validate_response v url getResp.status_code 0 getResp.headers := by
    simp only [request_get_fallback]
    rw [if_pos hsize]
  rw [hfall]
  refine ⟨validate_response_size_zero v url getResp.status_code getResp.headers, ?_⟩
  intro hst hhtml hrar hmin
  have hst' : ¬ (getResp.status_code ≠ 200 ∧ getResp.status_code ≠ 206) := by
    rcases hst with h1 | h1 <;> simp [h1]
  simp only [validate_response]
  rw [if_neg hst', if_neg hhtml, if_neg hrar, if_pos hmin]
  rfl

/-- Witness for the amended C6: a HEAD response without size headers followed
by a ranged GET reporting `Content-Range: bytes 0-0/1`. -/
theorem C6_head_fallback_witness :
    (request_head ⟨5, 1024, false, 0, 0, true, false, true⟩ "https://example.com/dl/token"
        ⟨200, {}⟩ ⟨206, { contentRange := some "bytes 0-0/1", contentLength := some "1" }⟩).2 = true ∧
    (request_head ⟨5, 1024, false, 0, 0, true, false, true⟩ "https://example.com/dl/token"
        ⟨200, {}⟩ ⟨206, { contentRange := some "bytes 0-0/1", contentLength := some "1" }⟩).1 =
      ⟨false, some 206, 0, "File too small: 0 bytes"⟩ := by
  have h := C6_head_fallback ⟨5, 1024, false, 0, 0, true, false, true⟩
    "https://example.com/dl/token" ⟨200, {}⟩
    ⟨206, { contentRange := some "bytes 0-0/1", contentLength := some "1" }⟩
    rfl (by decide)
  have h2 := h.2 (by decide)
  exact ⟨h.1, h2.2 (Or.inr rfl) (by decide) (by decide) (by decide)⟩

/-- C3: `reconcile_resume_urls` keeps exactly the input URLs one of whose
derived tokens (fragment-stripped URL, decoded final path segment, decoded
final fragment segment — all lowercased) occurs as a substring of the state
blob; an empty (unreadable) blob or an empty input set is returned unchanged;
and the spec's two-URL example keeps exactly the `fileA.rar` URL. -/
theorem C3_reconcile_characterisation :
    (∀ (blob : String) (urls : List String) (u : String),
        u ∈ reconcile_resume_urls blob urls ↔
          u ∈ urls ∧ (blob = "" ∨
            (resume_tokens u).any (fun token => strContains blob token) = true)) ∧
    (∀ urls, reconcile_resume_urls "" urls = urls) ∧
    (∀ blob, reconcile_resume_urls blob [] = []) ∧
    reconcile_resume_urls "filea.rar"
        ["https://host/parta#fileA.rar", "https://host/partb#fileB.rar"] =
      ["https://host/parta#fileA.rar"] := by
  refine ⟨?_, ?_, ?_, by decide⟩
  · intro blob urls u
    by_cases hurls : urls = []
    · subst hurls
      simp [reconcile_resume_urls]
    · by_cases hblob : blob = ""
      · subst hblob
        simp [reconcile_resume_urls, hurls]
      · simp [reconcile_resume_urls, hurls, hblob, List.mem_filter]
  · intro urls
    by_cases h : urls = [] <;> simp [reconcile_resume_urls, h]
  · intro blob
    simp [reconcile_resume_urls]

/-- Helper: the attempt loop makes at most `remaining` attempts. -/
theorem validateLoop_attempts_le (backoff : ℚ) (outcomes : Nat → ReqOutcome) :
    ∀ (remaining attempt : Nat),
      (validateLoop backoff outcomes attempt remaining).attemptsMade ≤ remaining := by
  intro remaining
  induction remaining with
  | zero => intro attempt; simp [validateLoop]
  | succ r ih =>
    intro attempt
    have h1 := ih (attempt + 1)
    cases h : outcomes attempt with
    | success result => simp [validateLoop, h]
    | timeout =>
      simp only [validateLoop, h]
      split
      · exact Nat.succ_le_succ (Nat.zero_le r)
      · exact Nat.succ_le_succ h1
    | reqError detail =>
      simp only [validateLoop, h]
      split
      · exact Nat.succ_le_succ (Nat.zero_le r)
      · exact Nat.succ_le_succ h1
    | otherExc detail => simp [validateLoop, h]

/-- Helper: an entered attempt loop makes at least one attempt. -/
theorem validateLoop_attempts_pos (backoff : ℚ) (outcomes : Nat → ReqOutcome)
    (r attempt : Nat) :
    1 ≤ (validateLoop backoff outcomes attempt (r + 1)).attemptsMade := by
  cases h : outcomes attempt with
  | success result => simp [validateLoop, h]
  | timeout =>
    simp only [validateLoop, h]
    split
    · exact Nat.le_refl 1
    · exact Nat.succ_le_succ (Nat.zero_le _)
  | reqError detail =>
    simp only [validateLoop, h]
    split
    · exact Nat.le_refl 1
    · exact Nat.succ_le_succ (Nat.zero_le _)
  | otherExc detail => simp [validateLoop, h]

/-- Helper: the sleeps of the attempt loop are exactly
`backoff * attemptNumber` for the attempt numbers that were followed by a
retry, i.e. linear backoff indexed from the starting attempt number. -/
theorem validateLoop_sleeps (backoff : ℚ) (outcomes : Nat → ReqOutcome) :
    ∀ (remaining attempt : Nat),
      (validateLoop backoff outcomes attempt remaining).sleeps =
        (List.range' attempt
            ((validateLoop backoff outcomes attempt remaining).attemptsMade - 1)).map
          (fun i : Nat => backoff * (i : ℚ)) := by
  intro remaining
  induction remaining with
  | zero => intro attempt; simp [validateLoop]
  | succ r ih =>
    intro attempt
    cases h : outcomes attempt with
    | success result => simp [validateLoop, h]
    | timeout =>
      simp only [validateLoop, h]
      split
      · simp
      · rename_i hr
        obtain ⟨r', hr'⟩ : ∃ r', r = r' + 1 := ⟨r - 1, by omega⟩
        subst hr'
        have hpos := validateLoop_attempts_pos backoff outcomes r' (attempt + 1)
        obtain ⟨m, hm⟩ : ∃ m,
            (validateLoop backoff outcomes (attempt + 1) (r' + 1)).attemptsMade = m + 1 :=
          ⟨(validateLoop backoff outcomes (attempt + 1) (r' + 1)).attemptsMade - 1, by omega⟩
        have hih := ih (attempt + 1)
        rw [hm] at hih
        simp only [Nat.add_sub_cancel] at hih
        show backoff * (attempt : ℚ) ::
            (validateLoop backoff outcomes (attempt + 1) (r' + 1)).sleeps =
          (List.range' attempt
              ((validateLoop backoff outcomes (attempt + 1) (r' + 1)).attemptsMade + 1 - 1)).map
            (fun i : Nat => backoff * (i : ℚ))
        rw [hm]
        simp only [Nat.add_sub_cancel]
        rw [List.range'_succ, List.map_cons, hih]
    | reqError detail =>
      simp only [validateLoop, h]
      split
      · simp
      · rename_i hr
        obtain ⟨r', hr'⟩ : ∃ r', r = r' + 1 := ⟨r - 1, by omega⟩
        subst hr'
        have hpos := validateLoop_attempts_pos backoff outcomes r' (attempt + 1)
        obtain ⟨m, hm⟩ : ∃ m,
            (validateLoop backoff outcomes (attempt + 1) (r' + 1)).attemptsMade = m + 1 :=
          ⟨(validateLoop backoff outcomes (attempt + 1) (r' + 1)).attemptsMade - 1, by omega⟩
        have hih := ih (attempt + 1)
        rw [hm] at hih
        simp only [Nat.add_sub_cancel] at hih
        show backoff * (attempt : ℚ) ::
            (validateLoop backoff outcomes (attempt + 1) (r' + 1)).sleeps =
          (List.range' attempt
              ((validateLoop backoff outcomes (attempt + 1) (r' + 1)).attemptsMade + 1 - 1)).map
            (fun i : Nat => backoff * (i : ℚ))
        rw [hm]
        simp only [Nat.add_sub_cancel]
        rw [List.range'_succ, List.map_cons, hih]
    | otherExc detail => simp [validateLoop, h]

/-- Helper: under uniformly timing-out attempts, the loop exhausts all its
attempts and returns the terminal `"Timeout"` result. -/
theorem validateLoop_all_timeout (backoff : ℚ) (outcomes : Nat → ReqOutcome)
    (hto : ∀ k, outcomes k = ReqOutcome.timeout) :
    ∀ (r attempt : Nat),
      (validateLoop backoff outcomes attempt (r + 1)).result =
          Except.ok ⟨false, none, 0, "Timeout"⟩ ∧
        (validateLoop backoff outcomes attempt (r + 1)).attemptsMade = r + 1 := by
  intro r
  induction r with
  | zero => intro attempt; simp [validateLoop, hto attempt]
  | succ r' ih =>
    intro attempt
    simp only [validateLoop, hto attempt]
    rw [if_neg (by omega : ¬ (r' + 1 = 0))]
    refine ⟨(ih (attempt + 1)).1, ?_⟩
    show (validateLoop backoff outcomes (attempt + 1) (r' + 1)).attemptsMade + 1 =
      r' + 1 + 1
    rw [(ih (attempt + 1)).2]

/-- Helper: under uniformly failing attempts (generic request errors), the
loop exhausts all its attempts and returns the terminal request-error
result. -/
theorem validateLoop_all_reqError (backoff : ℚ) (outcomes : Nat → ReqOutcome)
    (detail : String) (herr : ∀ k, outcomes k = ReqOutcome.reqError detail) :
    ∀ (r attempt : Nat),
      (validateLoop backoff outcomes attempt (r + 1)).result =
          Except.ok ⟨false, none, 0, "Request error: " ++ detail⟩ ∧
        (validateLoop backoff outcomes attempt (r + 1)).attemptsMade = r + 1 := by
  intro r
  induction r with
  | zero => intro attempt; simp [validateLoop, herr attempt]
  | succ r' ih =>
    intro attempt
    simp only [validateLoop, herr attempt]
    rw [if_neg (by omega : ¬ (r' + 1 = 0))]
    refine ⟨(ih (attempt + 1)).1, ?_⟩
    show (validateLoop backoff outcomes (attempt + 1) (r' + 1)).attemptsMade + 1 =
      r' + 1 + 1
    rw [(ih (attempt + 1)).2]

/-- Helper: an entered attempt loop never reaches the exhausted
fall-through. -/
theorem validateLoop_not_exhausted (backoff : ℚ) (outcomes : Nat → ReqOutcome) :
    ∀ (r attempt : Nat),
      (validateLoop backoff outcomes attempt (r + 1)).exhausted = false := by
  intro r
  induction r with
  | zero =>
    intro attempt
    cases h : outcomes attempt with
    | timeout => simp [validateLoop, h]
    | reqError detail => simp [validateLoop, h]
    | success result => simp [validateLoop, h]
    | otherExc detail => simp [validateLoop, h]
  | succ r' ih =>
    intro attempt
    cases h : outcomes attempt with
    | success result => simp [validateLoop, h]
    | timeout =>
      simp only [validateLoop, h]
      rw [if_neg (by omega : ¬ (r' + 1 = 0))]
      exact ih (attempt + 1)
    | reqError detail =>
      simp only [validateLoop, h]
      rw [if_neg (by omega : ¬ (r' + 1 = 0))]
      exact ih (attempt + 1)
    | otherExc detail => simp [validateLoop, h]

/-- C4: for a well-formed URL, `validate` makes at most `retry_count + 1`
attempts; the sleeps between attempts are exactly
`retry_backoff_seconds * attemptNumber` for the retried (non-final) attempt
numbers starting at 1 — linear, not exponential; uniformly timing-out or
uniformly failing attempts exhaust all `retry_count + 1` attempts and end in
the terminal `"Timeout"` / `"Request error: {detail}"` result; and an
exception of any other type on the first attempt is not retried but
propagates after exactly one attempt with no sleep. -/
theorem C4_retry_policy (v : URLValidatorCfg) (outcomes : Nat → ReqOutcome)
    (url : String) (hurl : is_valid_url url = true) :
    (validate v outcomes url).attemptsMade ≤ (v.retry_count + 1).toNat ∧
    (validate v outcomes url).sleeps =
      (List.range' 1 ((validate v outcomes url).attemptsMade - 1)).map
        (fun i : Nat => v.retry_backoff_seconds * (i : ℚ)) ∧
    ((∀ k, outcomes k = ReqOutcome.timeout) → 0 ≤ v.retry_count →
      (validate v outcomes url).result = Except.ok ⟨false, none, 0, "Timeout"⟩ ∧
      (validate v outcomes url).attemptsMade = (v.retry_count + 1).toNat) ∧
    (∀ detail, (∀ k, outcomes k = ReqOutcome.reqError detail) → 0 ≤ v.retry_count →
      (validate v outcomes url).result =
        Except.ok ⟨false, none, 0, "Request error: " ++ detail⟩ ∧
      (validate v outcomes url).attemptsMade = (v.retry_count + 1).toNat) ∧
    (∀ detail, outcomes 1 = ReqOutcome.otherExc detail → 0 ≤ v.retry_count →
      (validate v outcomes url).result = Except.error detail ∧
      (validate v outcomes url).attemptsMade = 1 ∧
      (validate v outcomes url).sleeps = []) := by
  have hv : validate v outcomes url =
      validateLoop v.retry_backoff_seconds outcomes 1 (v.retry_count + 1).toNat := by
    simp [validate, hurl]
  rw [hv]
  refine ⟨validateLoop_attempts_le _ _ _ _,
    validateLoop_sleeps _ _ _ _, ?_, ?_, ?_⟩
  · intro hto hrc
    obtain ⟨r, hr⟩ : ∃ r, (v.retry_count + 1).toNat = r + 1 :=
      ⟨(v.retry_count + 1).toNat - 1, by omega⟩
    rw [hr]
    exact validateLoop_all_timeout _ _ hto r 1
  · intro detail herr hrc
    obtain ⟨r, hr⟩ : ∃ r, (v.retry_count + 1).toNat = r + 1 :=
      ⟨(v.retry_count + 1).toNat - 1, by omega⟩
    rw [hr]
    exact validateLoop_all_reqError _ _ detail herr r 1
  · intro detail hexc hrc
    obtain ⟨r, hr⟩ : ∃ r, (v.retry_count + 1).toNat = r + 1 :=
      ⟨(v.retry_count + 1).toNat - 1, by omega⟩
    rw [hr]
    simp [validateLoop, hexc]

/-- Witness for C4: two retries, unit backoff, all attempts timing out —
three attempts, sleeps `[1, 2]`, terminal `"Timeout"`. -/
theorem C4_retry_policy_witness :
    (validate vW4 (fun _ => ReqOutcome.timeout) "https://example.com/a.rar").result =
        Except.ok ⟨false, none, 0, "Timeout"⟩ ∧
    (validate vW4 (fun _ => ReqOutcome.timeout) "https://example.com/a.rar").attemptsMade = 3 ∧
    (validate vW4 (fun _ => ReqOutcome.timeout) "https://example.com/a.rar").sleeps =
      [1, 2] := by
  have h := C4_retry_policy vW4 (fun _ => ReqOutcome.timeout)
    "https://example.com/a.rar" (by decide)
  have h3 := h.2.2.1 (fun _ => rfl) (by norm_num [vW4])
  have hmade : (validate vW4 (fun _ => ReqOutcome.timeout)
      "https://example.com/a.rar").attemptsMade = 3 := by
    rw [h3.2]; rfl
  refine ⟨h3.1, hmade, ?_⟩
  have hs := h.2.1
  rw [hmade] at hs
  rw [hs]
  norm_num [vW4, List.range']

/-- C10: with a non-negative `retry_count` the trailing
`"Unknown validation failure"` return of `validate` is unreachable (the
attempt loop always returns from within); only a negative `retry_count`
(zero total attempts) makes `validate` on a well-formed URL return that
result, with no attempt made and no sleep. -/
theorem C10_unknown_failure_unreachable (v : URLValidatorCfg)
    (outcomes : Nat → ReqOutcome) (url : String) :
    (0 ≤ v.retry_count → (validate v outcomes url).exhausted = false) ∧
    (v.retry_count < 0 → is_valid_url url = true →
      validate v outcomes url =
        ⟨Except.ok ⟨false, none, 0, "Unknown validation failure"⟩, 0, [], true⟩) := by
  constructor
  · intro hrc
    cases hurl : is_valid_url url with
    | false => simp [validate, hurl]
    | true =>
      have hv : validate v outcomes url =
          validateLoop v.retry_backoff_seconds outcomes 1 (v.retry_count + 1).toNat := by
        simp [validate, hurl]
      rw [hv]
      obtain ⟨r, hr⟩ : ∃ r, (v.retry_count + 1).toNat = r + 1 :=
        ⟨(v.retry_count + 1).toNat - 1, by omega⟩
      rw [hr]
      exact validateLoop_not_exhausted _ _ r 1
  · intro hrc hurl
    have hz : (v.retry_count + 1).toNat = 0 := by omega
    simp [validate, hurl, hz, validateLoop]

/-- Witness for C10: `retry_count = 2` never reaches the trailing return;
`retry_count = -1` returns `"Unknown validation failure"` with zero
attempts. -/
theorem C10_unknown_failure_unreachable_witness :
    (validate vW4 (fun _ => ReqOutcome.timeout) "https://example.com/a.rar").exhausted = false ∧
    validate vWneg (fun _ => ReqOutcome.timeout) "https://example.com/a.rar" =
      ⟨Except.ok ⟨false, none, 0, "Unknown validation failure"⟩, 0, [], true⟩ :=
  ⟨(C10_unknown_failure_unreachable vW4 (fun _ => ReqOutcome.timeout)
      "https://example.com/a.rar").1 (by norm_num [vW4]),
    (C10_unknown_failure_unreachable vWneg (fun _ => ReqOutcome.timeout)
      "https://example.com/a.rar").2 (by norm_num [vWneg]) (by decide)⟩

/-- Helper: when the selenium polling loop does not resolve, it returns the
input URL with the fixed timeout reason. -/
theorem seleniumPollLoop_not_resolved (url : String) :
    ∀ steps : List PollStep,
      (seleniumPollLoop url steps).was_resolved = false →
      seleniumPollLoop url steps =
        ⟨url, false, "selenium click did not produce direct link"⟩ := by
  intro steps
  induction steps with
  | nil => intro _; rfl
  | cons step rest ih =>
    intro h
    cases hu : step.newHandleUrl with
    | none =>
      by_cases hc : (strContains (urlparse step.sameTabUrl).path "/dl/" &&
          is_http_url step.sameTabUrl) = true
      · exfalso
        simp [seleniumPollLoop, hu, hc] at h
      · simp only [seleniumPollLoop, hu] at h ⊢
        simp only [Option.getD] at h ⊢
        rw [if_neg hc] at h ⊢
        exact ih h
    | some u =>
      by_cases hh : is_http_url u = true
      · exfalso
        simp [seleniumPollLoop, hu, hh] at h
      · have hh' : is_http_url u = false := by
          cases hx : is_http_url u
          · rfl
          · exact absurd hx hh
        by_cases hc : (strContains (urlparse u).path "/dl/" && is_http_url u) = true
        · rw [Bool.and_eq_true] at hc
          exact absurd hc.2 hh
        · simp only [seleniumPollLoop, hu, hh', Bool.false_eq_true, if_false,
            Option.getD, Bool.and_false] at h ⊢
          exact ih h

/-- Helper: a non-resolving selenium fallback keeps the input URL and always
gives a non-empty reason. -/
theorem resolve_selenium_failure_identity (url : String) (senv : SeleniumEnv)
    (h : (resolve_with_selenium_click url senv).was_resolved = false) :
    (resolve_with_selenium_click url senv).resolved_url = url ∧
    (resolve_with_selenium_click url senv).reason ≠ "" := by
  cases senv with
  | importError =>
    exact ⟨rfl, show ("selenium not installed" : String) ≠ "" by decide⟩
  | driverError detail =>
    exact ⟨rfl, str_append_ne_empty "selenium fallback error: " detail (by decide)⟩
  | polls steps =>
    have hres := seleniumPollLoop_not_resolved url steps h
    rw [show resolve_with_selenium_click url (SeleniumEnv.polls steps) =
      seleniumPollLoop url steps from rfl, hres]
    exact ⟨rfl, show ("selenium click did not produce direct link" : String) ≠ "" by decide⟩

/-- Helper: a non-resolving `resolve_download_button_link` keeps the input
URL and always gives a non-empty reason. -/
theorem resolve_failure_identity (url : String) (enabled sel : Bool)
    (fetch : FetchOutcome) (wOpen hrefs : String → List String)
    (ujoin : String → String → String) (senv : SeleniumEnv)
    (h : (resolve_download_button_link url enabled sel fetch wOpen hrefs
        ujoin senv).was_resolved = false) :
    (resolve_download_button_link url enabled sel fetch wOpen hrefs
        ujoin senv).resolved_url = url ∧
    (resolve_download_button_link url enabled sel fetch wOpen hrefs
        ujoin senv).reason ≠ "" := by
  cases enabled with
  | false =>
    have hres : resolve_download_button_link url false sel fetch wOpen hrefs
        ujoin senv = ⟨url, false, "resolver disabled"⟩ := by
      simp [resolve_download_button_link]
    rw [hres]
    exact ⟨rfl, show ("resolver disabled" : String) ≠ "" by decide⟩
  | true =>
    by_cases hdl : strContains (urlparse url).path "/dl/" = true
    · have hres : resolve_download_button_link url true sel fetch wOpen hrefs
          ujoin senv = ⟨url, false, "already direct"⟩ := by
        simp [resolve_download_button_link, hdl]
      rw [hres]
      exact ⟨rfl, show ("already direct" : String) ≠ "" by decide⟩
    · cases fetch with
      | exc detail =>
        have hres : resolve_download_button_link url true sel
            (FetchOutcome.exc detail) wOpen hrefs ujoin senv =
            ⟨url, false, "resolver request error: " ++ detail⟩ := by
          simp [resolve_download_button_link, hdl]
        rw [hres]
        exact ⟨rfl, str_append_ne_empty "resolver request error: " detail (by decide)⟩
      | ok response =>
        cases hct : strStartsWith
            (strLower (strStrip ((splitOnFirst ';' (response.contentType.getD "")).elim
              (response.contentType.getD "") Prod.fst))) "text/html" with
        | false =>
          have hres : resolve_download_button_link url true sel
              (FetchOutcome.ok response) wOpen hrefs ujoin senv =
              ⟨url, false, "not an HTML landing page"⟩ := by
            simp only [resolve_download_button_link, hdl]
            simp [hct]
          rw [hres]
          exact ⟨rfl, show ("not an HTML landing page" : String) ≠ "" by decide⟩
        | true =>
          cases hopen : ((wOpen response.text).map
              (fun candidate => ujoin response.url candidate)).find? is_http_url with
          | some direct_url =>
            exfalso
            have hres : resolve_download_button_link url true sel
                (FetchOutcome.ok response) wOpen hrefs ujoin senv =
                ⟨direct_url, true, "resolved via window.open"⟩ := by
              simp only [resolve_download_button_link, hdl]
              simp [hct, hopen]
            rw [hres] at h
            simp at h
          | none =>
            cases hhref : ((hrefs response.text).map
                (fun candidate => ujoin response.url candidate)).find? is_http_url with
            | some direct_url =>
              exfalso
              have hres : resolve_download_button_link url true sel
                  (FetchOutcome.ok response) wOpen hrefs ujoin senv =
                  ⟨direct_url, true, "resolved via href /dl/"⟩ := by
                simp only [resolve_download_button_link, hdl]
                simp [hct, hopen, hhref]
              rw [hres] at h
              simp at h
            | none =>
              cases sel with
              | false =>
                have hres : resolve_download_button_link url true false
                    (FetchOutcome.ok response) wOpen hrefs ujoin senv =
                    ⟨url, false, "download button link not found"⟩ := by
                  simp only [resolve_download_button_link, hdl]
                  simp [hct, hopen, hhref]
                rw [hres]
                exact ⟨rfl, show ("download button link not found" : String) ≠ "" by decide⟩
              | true =>
                cases hwr : (resolve_with_selenium_click url senv).was_resolved with
                | true =>
                  exfalso
                  have hres : resolve_download_button_link url true true
                      (FetchOutcome.ok response) wOpen hrefs ujoin senv =
                      resolve_with_selenium_click url senv := by
                    simp only [resolve_download_button_link, hdl]
                    simp [hct, hopen, hhref, hwr]
                  rw [hres] at h
                  rw [hwr] at h
                  exact absurd h (by decide)
                | false =>
                  have hres : resolve_download_button_link url true true
                      (FetchOutcome.ok response) wOpen hrefs ujoin senv =
                      ⟨url, false, "download button link not found; " ++
                        (resolve_with_selenium_click url senv).reason⟩ := by
                    simp only [resolve_download_button_link, hdl]
                    simp [hct, hopen, hhref, hwr]
                  rw [hres]
                  exact ⟨rfl, str_append_ne_empty "download button link not found; "
                    (resolve_with_selenium_click url senv).reason (by decide)⟩

/-- C8: every `ResolveResult` of `resolve_download_button_link` with
`was_resolved = false` carries `resolved_url` equal to the input URL and a
non-empty reason; with resolution disabled, or with the direct-download
marker `/dl/` already in the URL path, the resolver returns immediately with
`was_resolved = false` and the input URL; and the browser-automation
fallback `_resolve_with_selenium_click` satisfies the same failure identity
on every exit path. -/
theorem C8_resolve_failure_keeps_url (url : String) (enabled sel : Bool)
    (fetch : FetchOutcome) (wOpen hrefs : String → List String)
    (ujoin : String → String → String) (senv : SeleniumEnv) :
    ((resolve_download_button_link url enabled sel fetch wOpen hrefs
        ujoin senv).was_resolved = false →
      (resolve_download_button_link url enabled sel fetch wOpen hrefs
          ujoin senv).resolved_url = url ∧
      (resolve_download_button_link url enabled sel fetch wOpen hrefs
          ujoin senv).reason ≠ "") ∧
    (enabled = false →
      resolve_download_button_link url enabled sel fetch wOpen hrefs
          ujoin senv = ⟨url, false, "resolver disabled"⟩) ∧
    (strContains (urlparse url).path "/dl/" = true →
      resolve_download_button_link url true sel fetch wOpen hrefs
          ujoin senv = ⟨url, false, "already direct"⟩) ∧
    ((resolve_with_selenium_click url senv).was_resolved = false →
      (resolve_with_selenium_click url senv).resolved_url = url ∧
      (resolve_with_selenium_click url senv).reason ≠ "") := by
  refine ⟨resolve_failure_identity url enabled sel fetch wOpen hrefs ujoin senv,
    ?_, ?_, resolve_selenium_failure_identity url senv⟩
  · intro he
    simp [resolve_download_button_link, he]
  · intro hdl
    simp [resolve_download_button_link, hdl]

/-- Witness for C8: a disabled resolver, and an `/dl/` URL with the resolver
enabled, at concrete inputs. -/
theorem C8_resolve_failure_keeps_url_witness :
    (resolve_download_button_link "https://h/x" false false
        (FetchOutcome.exc "boom") (fun _ => []) (fun _ => [])
        (fun _ c => c) SeleniumEnv.importError).resolved_url = "https://h/x" ∧
    resolve_download_button_link "https://h/x" false false
        (FetchOutcome.exc "boom") (fun _ => []) (fun _ => [])
        (fun _ c => c) SeleniumEnv.importError =
      ⟨"https://h/x", false, "resolver disabled"⟩ ∧
    resolve_download_button_link "https://h/dl/tok" true false
        (FetchOutcome.exc "boom") (fun _ => []) (fun _ => [])
        (fun _ c => c) SeleniumEnv.importError =
      ⟨"https://h/dl/tok", false, "already direct"⟩ ∧
    (resolve_with_selenium_click "https://h/x" SeleniumEnv.importError).resolved_url =
      "https://h/x" := by
  have h1 := C8_resolve_failure_keeps_url "https://h/x" false false
    (FetchOutcome.exc "boom") (fun _ => []) (fun _ => [])
    (fun _ c => c) SeleniumEnv.importError
  have h2 := C8_resolve_failure_keeps_url "https://h/dl/tok" true false
    (FetchOutcome.exc "boom") (fun _ => []) (fun _ => [])
    (fun _ c => c) SeleniumEnv.importError
  refine ⟨?_, h1.2.1 rfl, h2.2.2.1 (by decide), (h1.2.2.2 rfl).1⟩
  exact (h1.1 (by rw [h1.2.1 rfl])).1

/-- Helper: one valid iteration of the generation loop reduces to the loop on
the advanced state. -/
theorem genLoop_step_valid (cfg : GenConfig) (probe : String → ValidationResult)
    (parts : List FilePart) (seen : List String) (i : Int) (examined : Nat)
    (fuel : Nat)
    (hpe : pastEndIndex cfg.end_index i = false)
    (hcontains : seen.contains (build_url cfg i) = false)
    (hv : (probe (build_url cfg i)).is_valid = true) :
    genLoop cfg probe parts seen i examined (fuel + 1) =
      genLoop cfg probe
        (parts ++ [⟨i, build_url cfg i, extract_filename (build_url cfg i) i,
          (probe (build_url cfg i)).size_bytes⟩])
        (build_url cfg i :: seen) (i + 1) (examined + 1) fuel := by
  simp only [genLoop]
  rw [if_neg (show ¬ pastEndIndex cfg.end_index i = true by simp [hpe])]
  rw [if_neg (show ¬ seen.contains (build_url cfg i) = true by rw [hcontains]; decide)]
  rw [if_neg (show ¬ (probe (build_url cfg i)).is_valid = false by simp [hv])]

/-- Helper: an invalid iteration of the generation loop stops with the
probe's reason at the current index. -/
theorem genLoop_step_invalid (cfg : GenConfig) (probe : String → ValidationResult)
    (parts : List FilePart) (seen : List String) (i : Int) (examined : Nat)
    (fuel : Nat)
    (hpe : pastEndIndex cfg.end_index i = false)
    (hcontains : seen.contains (build_url cfg i) = false)
    (hv : (probe (build_url cfg i)).is_valid = false) :
    genLoop cfg probe parts seen i examined (fuel + 1) =
      ⟨parts, examined + 1, (probe (build_url cfg i)).reason, some i, i,
        StopKind.invalidProbe⟩ := by
  simp only [genLoop]
  rw [if_neg (show ¬ pastEndIndex cfg.end_index i = true by simp [hpe])]
  rw [if_neg (show ¬ seen.contains (build_url cfg i) = true by rw [hcontains]; decide)]
  rw [if_pos hv]

/-- Helper: if from the current index every probe strictly before `k` is
valid, the probe at `k` is invalid, no constructed URL repeats or was
already seen, no end-index stop intervenes up to `k` and the remaining
budget covers reaching `k`, then the generation loop stops exactly at `k`,
copying the probe's reason, having examined one URL per index from the
current one through `k` and kept one part per valid index. -/
theorem genLoop_first_invalid (cfg : GenConfig) (probe : String → ValidationResult)
    (k : Int) :
    ∀ (fuel : Nat) (i : Int) (parts : List FilePart) (seen : List String)
      (examined : Nat),
      i ≤ k →
      (k - i).toNat < fuel →
      (∀ j : Int, i ≤ j → j ≤ k → ∀ e, cfg.end_index = some e → j ≤ e) →
      (∀ j : Int, i ≤ j → j < k → (probe (build_url cfg j)).is_valid = true) →
      (probe (build_url cfg k)).is_valid = false →
      (∀ j : Int, i ≤ j → j ≤ k → seen.contains (build_url cfg j) = false) →
      (∀ j l : Int, i ≤ j → j < l → l ≤ k → build_url cfg j ≠ build_url cfg l) →
      (genLoop cfg probe parts seen i examined fuel).stop_reason =
          (probe (build_url cfg k)).reason ∧
      (genLoop cfg probe parts seen i examined fuel).stop_index = some k ∧
      (genLoop cfg probe parts seen i examined fuel).examined =
          examined + ((k - i).toNat + 1) ∧
      (genLoop cfg probe parts seen i examined fuel).parts.length =
          parts.length + (k - i).toNat ∧
      (genLoop cfg probe parts seen i examined fuel).kind = StopKind.invalidProbe := by
  intro fuel
  induction fuel with
  | zero =>
    intro i parts seen examined hik hfuel
    omega
  | succ fuel ih =>
    intro i parts seen examined hik hfuel hend hvalid hinval hseen hdist
    have hpe : pastEndIndex cfg.end_index i = false := by
      cases he : cfg.end_index with
      | none => rfl
      | some e =>
        have hle := hend i (le_refl i) hik e he
        simp only [pastEndIndex, decide_eq_false_iff_not]
        omega
    have hcontains := hseen i (le_refl i) hik
    rcases eq_or_lt_of_le hik with heq | hlt
    · subst heq
      rw [genLoop_step_invalid cfg probe parts seen i examined fuel hpe hcontains hinval]
      refine ⟨rfl, rfl, ?_, ?_, rfl⟩
      · show examined + 1 = examined + ((i - i).toNat + 1)
        omega
      · show parts.length = parts.length + (i - i).toNat
        omega
    · have hv := hvalid i (le_refl i) hlt
      rw [genLoop_step_valid cfg probe parts seen i examined fuel hpe hcontains hv]
      have hrec := ih (i + 1)
        (parts ++ [⟨i, build_url cfg i, extract_filename (build_url cfg i) i,
          (probe (build_url cfg i)).size_bytes⟩])
        (build_url cfg i :: seen) (examined + 1)
        (by omega) (by omega)
        (fun j hj1 hj2 e he => hend j (by omega) hj2 e he)
        (fun j hj1 hj2 => hvalid j (by omega) hj2)
        hinval
        (by
          intro j hj1 hj2
          have hne : build_url cfg j ≠ build_url cfg i :=
            fun hcontra => hdist i j (le_refl i) (by omega) hj2 hcontra.symm
          have hs := hseen j (by omega) hj2
          simp only [List.contains_cons, hs, hne]
          simp only [Bool.or_false]
          exact beq_eq_false_iff_ne.mpr hne)
        (fun j l hj1 hjl hlk => hdist j l (by omega) hjl hlk)
      refine ⟨hrec.1, hrec.2.1, ?_, ?_, hrec.2.2.2.2⟩
      · rw [hrec.2.2.1]
        omega
      · rw [hrec.2.2.2.1]
        simp only [List.length_append, List.length_cons, List.length_nil]
        omega

/-- C1: in sequential mode the generation loop always halts at the first
index whose probe is invalid, copying the probe's reason into `stop_reason`
and the index into `stop_index`, having examined every index from
`start_index` through that index and kept exactly one part per earlier
(valid) index.  (The spec's three-URL scenario — probes 1 and 2 valid with
10,000,000 bytes, probe 3 invalid with `"HTTP 404"`, giving 2 parts,
`examined_count = 3`, `stop_reason = "HTTP 404"`, `stop_index = 3` — is this
statement instantiated at `k = 3`; see the witness.) -/
theorem C1_stops_at_first_invalid (cfg : GenConfig)
    (probe : String → ValidationResult) (k : Int)
    (h1 : cfg.start_index ≤ k)
    (h2 : (k - cfg.start_index).toNat < cfg.max_part)
    (h3 : ∀ j : Int, cfg.start_index ≤ j → j ≤ k →
      ∀ e, cfg.end_index = some e → j ≤ e)
    (h4 : ∀ j : Int, cfg.start_index ≤ j → j < k →
      (probe (build_url cfg j)).is_valid = true)
    (h5 : (probe (build_url cfg k)).is_valid = false)
    (h6 : ∀ j l : Int, cfg.start_index ≤ j → j < l → l ≤ k →
      build_url cfg j ≠ build_url cfg l)
    (h7 : (probe (build_url cfg k)).reason ≠ "completed") :
    (generate cfg probe).stop_reason = (probe (build_url cfg k)).reason ∧
    (generate cfg probe).stop_index = some k ∧
    (generate cfg probe).examined_count = (k - cfg.start_index).toNat + 1 ∧
    (generate cfg probe).parts.length = (k - cfg.start_index).toNat := by
  have hloop := genLoop_first_invalid cfg probe k cfg.max_part cfg.start_index
    [] [] 0 h1 h2 h3 h4 h5 (fun j _ _ => rfl) h6
  have hcond : ¬ (cfg.max_part ≤
      (genLoop cfg probe [] [] cfg.start_index 0 cfg.max_part).examined ∧
      (genLoop cfg probe [] [] cfg.start_index 0 cfg.max_part).stop_reason =
        "completed") := by
    intro hc
    exact h7 (hloop.1.symm.trans hc.2)
  simp only [generate, generateWithKind]
  rw [if_neg hcond]
  refine ⟨hloop.1, hloop.2.1, ?_, ?_⟩
  · show (genLoop cfg probe [] [] cfg.start_index 0 cfg.max_part).examined =
      (k - cfg.start_index).toNat + 1
    rw [hloop.2.2.1]
    omega
  · show (genLoop cfg probe [] [] cfg.start_index 0 cfg.max_part).parts.length =
      (k - cfg.start_index).toNat
    rw [hloop.2.2.2.1]
    simp

/-- Witness for C1: the spec's three-URL scenario — two valid probes of
10,000,000 bytes each, then `"HTTP 404"` at index 3. -/
theorem C1_stops_at_first_invalid_witness :
    (generate cfgW1 probeW1).stop_reason = "HTTP 404" ∧
    (generate cfgW1 probeW1).stop_index = some 3 ∧
    (generate cfgW1 probeW1).examined_count = 3 ∧
    (generate cfgW1 probeW1).parts.length = 2 := by
  have h := C1_stops_at_first_invalid cfgW1 probeW1 3
    (by decide) (by decide)
    (by intro j _ _ e he; simp [cfgW1] at he)
    (by
      intro j hj1 hj2
      have hj1' : (1 : ℤ) ≤ j := by simpa [cfgW1] using hj1
      interval_cases j <;> decide)
    (by decide)
    (by
      intro j l hj1 hjl hlk
      have hj1' : (1 : ℤ) ≤ j := by simpa [cfgW1] using hj1
      have hj2' : j < (3 : ℤ) := lt_of_lt_of_le hjl hlk
      interval_cases j <;> interval_cases l <;> decide)
    (by decide)
  refine ⟨h.1.trans (by decide), h.2.1, ?_, ?_⟩
  · rw [h.2.2.1]
    decide
  · rw [h.2.2.2]
    decide

/-- Helper: the end-index guard stops the loop before examining the URL. -/
theorem genLoop_step_end (cfg : GenConfig) (probe : String → ValidationResult)
    (parts : List FilePart) (seen : List String) (i : Int) (examined : Nat)
    (fuel : Nat) (hpe : pastEndIndex cfg.end_index i = true) :
    genLoop cfg probe parts seen i examined (fuel + 1) =
      ⟨parts, examined, "reached end_index", none, i, StopKind.reachedEnd⟩ := by
  simp only [genLoop]
  rw [if_pos hpe]

/-- Helper: a repeated URL stops the loop after counting the examination. -/
theorem genLoop_step_dup (cfg : GenConfig) (probe : String → ValidationResult)
    (parts : List FilePart) (seen : List String) (i : Int) (examined : Nat)
    (fuel : Nat) (hpe : pastEndIndex cfg.end_index i = false)
    (hcontains : seen.contains (build_url cfg i) = true) :
    genLoop cfg probe parts seen i examined (fuel + 1) =
      ⟨parts, examined + 1, "duplicate URL generated", some i, i,
        StopKind.duplicateUrl⟩ := by
  simp only [genLoop]
  rw [if_neg (show ¬ pastEndIndex cfg.end_index i = true by simp [hpe])]
  rw [if_pos hcontains]

/-- Helper: structural invariants of the generation loop — the part count
never exceeds the examined count, part indices are strictly increasing, the
fuel-exhaustion exit happens exactly at `max_part` examinations, and each
stop kind determines the stop reason and whether a stop index is set. -/
theorem genLoop_invariants (cfg : GenConfig) (probe : String → ValidationResult) :
    ∀ (fuel : Nat) (parts : List FilePart) (seen : List String) (index : Int)
      (examined : Nat),
      parts.length ≤ examined →
      (∀ p, p ∈ parts → p.index < index) →
      parts.Pairwise (fun a b => a.index < b.index) →
      ∀ r, r = genLoop cfg probe parts seen index examined fuel →
        r.parts.length ≤ r.examined ∧
        r.parts.Pairwise (fun a b => a.index < b.index) ∧
        (fuel + examined = cfg.max_part → r.kind = StopKind.completedLoop →
          r.examined = cfg.max_part) ∧
        (r.kind = StopKind.completedLoop →
          r.stop_reason = "completed" ∧ r.stop_index = none) ∧
        (r.kind = StopKind.reachedEnd →
          r.stop_reason = "reached end_index" ∧ r.stop_index = none) ∧
        (r.kind = StopKind.duplicateUrl →
          r.stop_reason = "duplicate URL generated" ∧ r.stop_index.isSome = true) ∧
        (r.kind = StopKind.invalidProbe →
          (∃ u, r.stop_reason = (probe u).reason ∧ (probe u).is_valid = false) ∧
          r.stop_index.isSome = true) ∧
        (r.kind = StopKind.maxPart → False) := by
  intro fuel
  induction fuel with
  | zero =>
    intro parts seen index examined hlen hbnd hpw r hr
    rw [show genLoop cfg probe parts seen index examined 0 =
      ⟨parts, examined, "completed", none, index, StopKind.completedLoop⟩
      from rfl] at hr
    subst hr
    refine ⟨hlen, hpw, ?_, fun _ => ⟨rfl, rfl⟩, ?_, ?_, ?_, ?_⟩
    · intro hfe _
      show examined = cfg.max_part
      omega
    · intro hk
      simp at hk
    · intro hk
      simp at hk
    · intro hk
      simp at hk
    · intro hk
      simp at hk
  | succ fuel ih =>
    intro parts seen index examined hlen hbnd hpw r hr
    by_cases hpe : pastEndIndex cfg.end_index index = true
    · rw [genLoop_step_end cfg probe parts seen index examined fuel hpe] at hr
      subst hr
      refine ⟨hlen, hpw, ?_, ?_, fun _ => ⟨rfl, rfl⟩, ?_, ?_, ?_⟩
      · intro _ hk
        simp at hk
      · intro hk
        simp at hk
      · intro hk
        simp at hk
      · intro hk
        simp at hk
      · intro hk
        simp at hk
    · have hpe' : pastEndIndex cfg.end_index index = false := by
        cases hx : pastEndIndex cfg.end_index index
        · rfl
        · exact absurd hx hpe
      by_cases hcont : seen.contains (build_url cfg index) = true
      · rw [genLoop_step_dup cfg probe parts seen index examined fuel hpe' hcont] at hr
        subst hr
        refine ⟨by show parts.length ≤ examined + 1; omega, hpw,
          ?_, ?_, ?_, fun _ => ⟨rfl, rfl⟩, ?_, ?_⟩
        · intro _ hk
          simp at hk
        · intro hk
          simp at hk
        · intro hk
          simp at hk
        · intro hk
          simp at hk
        · intro hk
          simp at hk
      · have hcont' : seen.contains (build_url cfg index) = false := by
          cases hx : seen.contains (build_url cfg index)
          · rfl
          · exact absurd hx hcont
        cases hv : (probe (build_url cfg index)).is_valid with
        | false =>
          rw [genLoop_step_invalid cfg probe parts seen index examined fuel
            hpe' hcont' hv] at hr
          subst hr
          refine ⟨by show parts.length ≤ examined + 1; omega, hpw,
            ?_, ?_, ?_, ?_,
            fun _ => ⟨⟨build_url cfg index, rfl, hv⟩, rfl⟩, ?_⟩
          · intro _ hk
            simp at hk
          · intro hk
            simp at hk
          · intro hk
            simp at hk
          · intro hk
            simp at hk
          · intro hk
            simp at hk
        | true =>
          rw [genLoop_step_valid cfg probe parts seen index examined fuel
            hpe' hcont' hv] at hr
          have hrec := ih
            (parts ++ [⟨index, build_url cfg index,
              extract_filename (build_url cfg index) index,
              (probe (build_url cfg index)).size_bytes⟩])
            (build_url cfg index :: seen) (index + 1) (examined + 1)
            (by
              simp only [List.length_append, List.length_cons, List.length_nil]
              omega)
            (by
              intro q hq
              rcases List.mem_append.mp hq with hq1 | hq1
              · have := hbnd q hq1
                omega
              · rcases List.mem_singleton.mp hq1 with rfl
                show index < index + 1
                omega)
            (by
              rw [List.pairwise_append]
              refine ⟨hpw, List.pairwise_singleton _ _, ?_⟩
              intro a ha b hb
              rcases List.mem_singleton.mp hb with rfl
              exact hbnd a ha)
            r hr
          refine ⟨hrec.1, hrec.2.1, ?_, hrec.2.2.2.1, hrec.2.2.2.2.1,
            hrec.2.2.2.2.2.1, hrec.2.2.2.2.2.2.1, hrec.2.2.2.2.2.2.2⟩
          intro hfe hk
          exact hrec.2.2.1 (by omega) hk

/-- C2: every sequential-mode `GenerationReport` (for probes whose reasons,
like the real validator's, are never empty and never the literal
`"completed"`) satisfies `examined_count >= len(parts)`; its `stop_reason`
is a non-empty string equal to `"completed"` exactly when the untouched
default would have survived — which never happens, as some stop condition
always fires; `stop_index` is set exactly when the run stopped at a specific
index (duplicate URL, invalid probe, or the `max_part` cap) and is `None`
exactly for the `"reached end_index"` outcome; and the `FilePart` indices
are strictly increasing. -/
theorem C2_report_invariants (cfg : GenConfig) (probe : String → ValidationResult)
    (hne : ∀ u, (probe u).reason ≠ "")
    (hnc : ∀ u, (probe u).reason ≠ "completed") :
    (generate cfg probe).parts.length ≤ (generate cfg probe).examined_count ∧
    (generate cfg probe).stop_reason ≠ "" ∧
    ((generate cfg probe).stop_reason = "completed" ↔
      (generateWithKind cfg probe).2 = StopKind.completedLoop) ∧
    (generateWithKind cfg probe).2 ≠ StopKind.completedLoop ∧
    ((generate cfg probe).stop_index = none ↔
      (generateWithKind cfg probe).2 = StopKind.reachedEnd) ∧
    ((generate cfg probe).stop_index.isSome = true ↔
      ((generateWithKind cfg probe).2 = StopKind.duplicateUrl ∨
        (generateWithKind cfg probe).2 = StopKind.invalidProbe ∨
        (generateWithKind cfg probe).2 = StopKind.maxPart)) ∧
    (generate cfg probe).parts.Pairwise (fun a b => a.index < b.index) := by
  obtain ⟨hlen, hpw, hfe, hcomp, hend, hdup, hinvp, hmax⟩ :=
    genLoop_invariants cfg probe cfg.max_part [] [] cfg.start_index 0
      (by simp) (fun p hp => absurd hp (List.not_mem_nil p)) List.Pairwise.nil
      (genLoop cfg probe [] [] cfg.start_index 0 cfg.max_part) rfl
  cases hkind : (genLoop cfg probe [] [] cfg.start_index 0 cfg.max_part).kind with
  | completedLoop =>
    have hreason := (hcomp hkind).1
    have hexam := hfe (by omega) hkind
    have hgen : generateWithKind cfg probe =
        (⟨(genLoop cfg probe [] [] cfg.start_index 0 cfg.max_part).parts,
          (genLoop cfg probe [] [] cfg.start_index 0 cfg.max_part).examined,
          "reached max_part",
          some (genLoop cfg probe [] [] cfg.start_index 0 cfg.max_part).finalIndex⟩,
          StopKind.maxPart) := by
      simp only [generateWithKind]
      rw [if_pos ⟨le_of_eq hexam.symm, hreason⟩]
    have hgen1 : generate cfg probe =
        ⟨(genLoop cfg probe [] [] cfg.start_index 0 cfg.max_part).parts,
          (genLoop cfg probe [] [] cfg.start_index 0 cfg.max_part).examined,
          "reached max_part",
          some (genLoop cfg probe [] [] cfg.start_index 0 cfg.max_part).finalIndex⟩ := by
      rw [generate, hgen]
    rw [hgen1, hgen]
    refine ⟨hlen, show ("reached max_part" : String) ≠ "" by decide, ?_,
      show StopKind.maxPart ≠ StopKind.completedLoop by decide, ?_, ?_, hpw⟩
    · exact iff_of_false
        (show ¬ ("reached max_part" : String) = "completed" by decide)
        (show ¬ StopKind.maxPart = StopKind.completedLoop by decide)
    · exact iff_of_false (by simp)
        (show ¬ StopKind.maxPart = StopKind.reachedEnd by decide)
    · exact iff_of_true (by simp) (Or.inr (Or.inr rfl))
  | reachedEnd =>
    have hreason := (hend hkind).1
    have hidx := (hend hkind).2
    have hgen : generateWithKind cfg probe =
        (⟨(genLoop cfg probe [] [] cfg.start_index 0 cfg.max_part).parts,
          (genLoop cfg probe [] [] cfg.start_index 0 cfg.max_part).examined,
          (genLoop cfg probe [] [] cfg.start_index 0 cfg.max_part).stop_reason,
          (genLoop cfg probe [] [] cfg.start_index 0 cfg.max_part).stop_index⟩,
          (genLoop cfg probe [] [] cfg.start_index 0 cfg.max_part).kind) := by
      simp only [generateWithKind]
      rw [if_neg (fun hc => by rw [hreason] at hc; exact absurd hc.2 (by decide))]
    have hgen1 : generate cfg probe =
        ⟨(genLoop cfg probe [] [] cfg.start_index 0 cfg.max_part).parts,
          (genLoop cfg probe [] [] cfg.start_index 0 cfg.max_part).examined,
          (genLoop cfg probe [] [] cfg.start_index 0 cfg.max_part).stop_reason,
          (genLoop cfg probe [] [] cfg.start_index 0 cfg.max_part).stop_index⟩ := by
      rw [generate, hgen]
    rw [hgen1, hgen, hkind, hreason, hidx]
    refine ⟨hlen, show ("reached end_index" : String) ≠ "" by decide, ?_,
      show StopKind.reachedEnd ≠ StopKind.completedLoop by decide, ?_, ?_, hpw⟩
    · exact iff_of_false
        (show ¬ ("reached end_index" : String) = "completed" by decide)
        (show ¬ StopKind.reachedEnd = StopKind.completedLoop by decide)
    · exact iff_of_true rfl rfl
    · refine iff_of_false (by simp) ?_
      rintro (hc | hc | hc) <;> simp at hc
  | duplicateUrl =>
    have hreason := (hdup hkind).1
    have hidx := (hdup hkind).2
    have hgen : generateWithKind cfg probe =
        (⟨(genLoop cfg probe [] [] cfg.start_index 0 cfg.max_part).parts,
          (genLoop cfg probe [] [] cfg.start_index 0 cfg.max_part).examined,
          (genLoop cfg probe [] [] cfg.start_index 0 cfg.max_part).stop_reason,
          (genLoop cfg probe [] [] cfg.start_index 0 cfg.max_part).stop_index⟩,
          (genLoop cfg probe [] [] cfg.start_index 0 cfg.max_part).kind) := by
      simp only [generateWithKind]
      rw [if_neg (fun hc => by rw [hreason] at hc; exact absurd hc.2 (by decide))]
    have hgen1 : generate cfg probe =
        ⟨(genLoop cfg probe [] [] cfg.start_index 0 cfg.max_part).parts,
          (genLoop cfg probe [] [] cfg.start_index 0 cfg.max_part).examined,
          (genLoop cfg probe [] [] cfg.start_index 0 cfg.max_part).stop_reason,
          (genLoop cfg probe [] [] cfg.start_index 0 cfg.max_part).stop_index⟩ := by
      rw [generate, hgen]
    rw [hgen1, hgen, hkind, hreason]
    refine ⟨hlen, show ("duplicate URL generated" : String) ≠ "" by decide, ?_,
      show StopKind.duplicateUrl ≠ StopKind.completedLoop by decide, ?_, ?_, hpw⟩
    · exact iff_of_false
        (show ¬ ("duplicate URL generated" : String) = "completed" by decide)
        (show ¬ StopKind.duplicateUrl = StopKind.completedLoop by decide)
    · refine iff_of_false ?_
        (show ¬ StopKind.duplicateUrl = StopKind.reachedEnd by decide)
      intro hc
      have hc2 : (genLoop cfg probe [] [] cfg.start_index 0 cfg.max_part).stop_index =
        none := hc
      rw [hc2] at hidx
      simp at hidx
    · exact iff_of_true hidx (Or.inl rfl)
  | invalidProbe =>
    obtain ⟨⟨u, hreason, _⟩, hidx⟩ := hinvp hkind
    have hgen : generateWithKind cfg probe =
        (⟨(genLoop cfg probe [] [] cfg.start_index 0 cfg.max_part).parts,
          (genLoop cfg probe [] [] cfg.start_index 0 cfg.max_part).examined,
          (genLoop cfg probe [] [] cfg.start_index 0 cfg.max_part).stop_reason,
          (genLoop cfg probe [] [] cfg.start_index 0 cfg.max_part).stop_index⟩,
          (genLoop cfg probe [] [] cfg.start_index 0 cfg.max_part).kind) := by
      simp only [generateWithKind]
      rw [if_neg (fun hc => by rw [hreason] at hc; exact hnc u hc.2)]
    have hgen1 : generate cfg probe =
        ⟨(genLoop cfg probe [] [] cfg.start_index 0 cfg.max_part).parts,
          (genLoop cfg probe [] [] cfg.start_index 0 cfg.max_part).examined,
          (genLoop cfg probe [] [] cfg.start_index 0 cfg.max_part).stop_reason,
          (genLoop cfg probe [] [] cfg.start_index 0 cfg.max_part).stop_index⟩ := by
      rw [generate, hgen]
    rw [hgen1, hgen, hkind, hreason]
    refine ⟨hlen, hne u, ?_,
      show StopKind.invalidProbe ≠ StopKind.completedLoop by decide, ?_, ?_, hpw⟩
    · exact iff_of_false (hnc u)
        (show ¬ StopKind.invalidProbe = StopKind.completedLoop by decide)
    · refine iff_of_false ?_
        (show ¬ StopKind.invalidProbe = StopKind.reachedEnd by decide)
      intro hc
      have hc2 : (genLoop cfg probe [] [] cfg.start_index 0 cfg.max_part).stop_index =
        none := hc
      rw [hc2] at hidx
      simp at hidx
    · exact iff_of_true hidx (Or.inr (Or.inl rfl))
  | maxPart => exact absurd hkind (fun h => hmax h)

/-- Witness for C2 at a concrete configuration and probe (everything 404). -/
theorem C2_report_invariants_witness :
    (generate cfgW2 probeAll404).parts.length ≤
        (generate cfgW2 probeAll404).examined_count ∧
    (generate cfgW2 probeAll404).stop_reason ≠ "" ∧
    (generateWithKind cfgW2 probeAll404).2 ≠ StopKind.completedLoop ∧
    (generate cfgW2 probeAll404).stop_index.isSome = true ∧
    (generate cfgW2 probeAll404).parts.Pairwise (fun a b => a.index < b.index) := by
  have h := C2_report_invariants cfgW2 probeAll404
    (fun u => show ("HTTP 404" : String) ≠ "" by decide)
    (fun u => show ("HTTP 404" : String) ≠ "completed" by decide)
  refine ⟨h.1, h.2.1, h.2.2.2.1, ?_, h.2.2.2.2.2.2⟩
  exact h.2.2.2.2.2.1.mpr (Or.inr (Or.inl (by rfl)))

/-- Helper: the generation loop only appends parts whose probe was valid. -/
theorem genLoop_parts_valid (cfg : GenConfig) (probe : String → ValidationResult) :
    ∀ (fuel : Nat) (parts : List FilePart) (seen : List String) (index : Int)
      (examined : Nat),
      (∀ p, p ∈ parts → (probe p.url).is_valid = true) →
      ∀ p, p ∈ (genLoop cfg probe parts seen index examined fuel).parts →
        (probe p.url).is_valid = true := by
  intro fuel
  induction fuel with
  | zero =>
    intro parts seen index examined hp p hmem
    exact hp p hmem
  | succ fuel ih =>
    intro parts seen index examined hp p hmem
    by_cases hpe : pastEndIndex cfg.end_index index = true
    · rw [genLoop_step_end cfg probe parts seen index examined fuel hpe] at hmem
      exact hp p hmem
    · have hpe' : pastEndIndex cfg.end_index index = false := by
        cases hx : pastEndIndex cfg.end_index index
        · rfl
        · exact absurd hx hpe
      by_cases hcont : seen.contains (build_url cfg index) = true
      · rw [genLoop_step_dup cfg probe parts seen index examined fuel hpe' hcont]
          at hmem
        exact hp p hmem
      · have hcont' : seen.contains (build_url cfg index) = false := by
          cases hx : seen.contains (build_url cfg index)
          · rfl
          · exact absurd hx hcont
        cases hv : (probe (build_url cfg index)).is_valid with
        | false =>
          rw [genLoop_step_invalid cfg probe parts seen index examined fuel
            hpe' hcont' hv] at hmem
          exact hp p hmem
        | true =>
          rw [genLoop_step_valid cfg probe parts seen index examined fuel
            hpe' hcont' hv] at hmem
          refine ih _ _ _ _ ?_ p hmem
          intro q hq
          rcases List.mem_append.mp hq with h1 | h1
          · exact hp q h1
          · rcases List.mem_singleton.mp h1 with rfl
            exact hv

/-- Helper: every part kept in input-URL mode comes from a valid probe or
from the size-unknown exception, and in the latter case carries size 0. -/
theorem buildInputLoop_parts_classified (resolver : String → ResolveResult)
    (probe : String → ValidationResult) :
    ∀ (urls : List String) (index : Int) (p : FilePart),
      p ∈ buildInputLoop resolver probe urls index →
      (probe p.url).is_valid = true ∨
      ((probe p.url).is_valid = false ∧
        ((probe p.url).status_code = some 200 ∨
          (probe p.url).status_code = some 206) ∧
        (probe p.url).size_bytes = 0 ∧
        strStartsWith (probe p.url).reason "File too small" = true ∧
        p.size_bytes = 0) := by
  intro urls
  induction urls with
  | nil =>
    intro index p hmem
    exact absurd hmem (List.not_mem_nil p)
  | cons url rest ih =>
    intro index p hmem
    cases hv : (probe (resolver url).resolved_url).is_valid with
    | true =>
      rw [show buildInputLoop resolver probe (url :: rest) index =
          ⟨index, (resolver url).resolved_url, filename_from_url url index,
            (probe (resolver url).resolved_url).size_bytes⟩ ::
            buildInputLoop resolver probe rest (index + 1) by
        simp only [buildInputLoop]
        rw [if_pos hv]] at hmem
      rcases List.mem_cons.mp hmem with rfl | h1
      · exact Or.inl hv
      · exact ih (index + 1) p h1
    | false =>
      by_cases hal : (((probe (resolver url).resolved_url).status_code == some 200 ||
            (probe (resolver url).resolved_url).status_code == some 206) &&
          (probe (resolver url).resolved_url).size_bytes == 0 &&
          strStartsWith (probe (resolver url).resolved_url).reason
            "File too small") = true
      · rw [show buildInputLoop resolver probe (url :: rest) index =
            ⟨index, (resolver url).resolved_url, filename_from_url url index, 0⟩ ::
              buildInputLoop resolver probe rest (index + 1) by
          simp only [buildInputLoop]
          rw [if_neg (show ¬ (probe (resolver url).resolved_url).is_valid = true by
            rw [hv]; decide)]
          rw [if_pos hal]] at hmem
        rcases List.mem_cons.mp hmem with rfl | h1
        · have hal2 := hal
          simp only [Bool.and_eq_true, Bool.or_eq_true, beq_iff_eq] at hal2
          obtain ⟨⟨hor, hsz⟩, hst⟩ := hal2
          exact Or.inr ⟨hv, hor, hsz, hst, rfl⟩
        · exact ih (index + 1) p h1
      · rw [show buildInputLoop resolver probe (url :: rest) index =
            buildInputLoop resolver probe rest (index + 1) by
          simp only [buildInputLoop]
          rw [if_neg (show ¬ (probe (resolver url).resolved_url).is_valid = true by
            rw [hv]; decide)]
          rw [if_neg hal]] at hmem
        exact ih (index + 1) p hmem

/-- C9: in sequential mode a probe result with `is_valid = false` never
yields a `FilePart`; in input-URL mode the same holds except for the
size-unknown exception — a result with status 200 or 206, size 0 and a
reason starting `"File too small"` still yields a part, with
`size_bytes = 0`. -/
theorem C9_invalid_never_yields_part (cfg : GenConfig)
    (probe : String → ValidationResult) (input_urls : List String)
    (resolver : String → ResolveResult) :
    (∀ p, p ∈ (generate cfg probe).parts → (probe p.url).is_valid = true) ∧
    (∀ p, p ∈ (build_report_from_input_urls input_urls resolver probe).parts →
      (probe p.url).is_valid = true ∨
      ((probe p.url).is_valid = false ∧
        ((probe p.url).status_code = some 200 ∨
          (probe p.url).status_code = some 206) ∧
        (probe p.url).size_bytes = 0 ∧
        strStartsWith (probe p.url).reason "File too small" = true ∧
        p.size_bytes = 0)) := by
  constructor
  · intro p hmem
    have hparts : (generate cfg probe).parts =
        (genLoop cfg probe [] [] cfg.start_index 0 cfg.max_part).parts := by
      simp only [generate, generateWithKind]
      split <;> rfl
    rw [hparts] at hmem
    exact genLoop_parts_valid cfg probe cfg.max_part [] [] cfg.start_index 0
      (fun q hq => absurd hq (List.not_mem_nil q)) p hmem
  · intro p hmem
    exact buildInputLoop_parts_classified resolver probe input_urls 1 p hmem

/-- Witness for C9: a sequential part from an all-valid probe, and an
input-URL part kept through the size-unknown exception. -/
theorem C9_invalid_never_yields_part_witness :
    (probeAllValid partSeqW.url).is_valid = true ∧
    ((probeSizeUnknown partInputW.url).is_valid = true ∨
      ((probeSizeUnknown partInputW.url).is_valid = false ∧
        ((probeSizeUnknown partInputW.url).status_code = some 200 ∨
          (probeSizeUnknown partInputW.url).status_code = some 206) ∧
        (probeSizeUnknown partInputW.url).size_bytes = 0 ∧
        strStartsWith (probeSizeUnknown partInputW.url).reason
          "File too small" = true ∧
        partInputW.size_bytes = 0)) := by
  constructor
  · exact (C9_invalid_never_yields_part cfgW2 probeAllValid [] resolverDisabled).1
      partSeqW (by decide)
  · exact (C9_invalid_never_yields_part cfgW2 probeSizeUnknown
      ["https://h/a.rar"] resolverDisabled).2 partInputW (by decide)
